import Mathlib

/-!
Verification of the WhatsApp booking-bot conversation engine (`src/index.js`).

Strings are modelled as lists of characters (`Str`), times and dates as
natural numbers where only their arithmetic matters.  Network effects
(Zoho, Stripe, WhatsApp delivery) are modelled by an explicit environment
record of oracle responses; every handler of the webhook dispatch is a pure
function of the session, the inbound message and that environment.
-/

namespace WABot

abbrev Str := List Char

/-- `s.trim()` on JS strings: drop whitespace from both ends. -/
def trimStr (s : Str) : Str :=
  ((s.dropWhile Char.isWhitespace).reverse.dropWhile Char.isWhitespace).reverse

/-- `s.toLowerCase()`. -/
def toLowerStr (s : Str) : Str := s.map Char.toLower

/-- `phone.replace(/\D/g, "")`: keep only the digits. -/
def digitsOf (s : Str) : Str := s.filter (fun c => c.isDigit)

/-- The test `/^[6-9]\d{9}$/.test(digits)` of `validatePhone`. -/
def mobileRegexTest (s : Str) : Bool :=
  match s with
  | [] => false
  | c :: rest => ('6' ≤ c && c ≤ '9') && rest.length == 9 && rest.all (fun d => d.isDigit)

/-- `validatePhone` (src/index.js lines 125-135). -/
def validatePhone (phone : Str) : Bool :=
  let digits := digitsOf phone
  if digits.length ≠ 10 then false
  else mobileRegexTest digits

/-- `s.split(sep)` for a one-character separator. -/
def splitOnChar (sep : Char) : Str → List Str
  | [] => [[]]
  | c :: rest =>
    let r := splitOnChar sep rest
    if c = sep then [] :: r
    else
      match r with
      | hd :: tl => (c :: hd) :: tl
      | [] => [[c]]

/-- Character class `[a-z0-9._%+-]` of the local part of the e-mail regex. -/
def isLocalChar (c : Char) : Bool :=
  ('a' ≤ c && c ≤ 'z') || c.isDigit || c = '.' || c = '_' || c = '%' || c = '+' || c = '-'

/-- Character class `[a-z0-9.-]` of the domain part of the e-mail regex. -/
def isDomainChar (c : Char) : Bool :=
  ('a' ≤ c && c ≤ 'z') || c.isDigit || c = '.' || c = '-'

def isLowerAlpha (c : Char) : Bool := 'a' ≤ c && c ≤ 'z'

/-- The domain side `[a-z0-9.-]+\.[a-z]{2,}$` of the e-mail regex: a suffix of
at least two lowercase letters after the last dot, preceded by a non-empty
run of domain characters. -/
def domainRegexOk (domain : Str) : Bool :=
  if domain.contains '.' then
    let tld := (domain.reverse.takeWhile (fun c => c ≠ '.')).reverse
    let pre := domain.take (domain.length - tld.length - 1)
    pre ≠ [] && pre.all isDomainChar && decide (2 ≤ tld.length) && tld.all isLowerAlpha
  else false

/-- `/^[a-z0-9._%+-]+@[a-z0-9.-]+\.[a-z]{2,}$/.test(email)`.  Both character
classes exclude `@`, so the string must contain exactly one `@`. -/
def emailRegexTest (s : Str) : Bool :=
  match splitOnChar '@' s with
  | [localPart, domain] =>
    localPart ≠ [] && localPart.all isLocalChar && domainRegexOk domain
  | _ => false

/-- `validateEmail` (src/index.js lines 82-123). -/
def validateEmail (email0 : Str) : Bool :=
  let email := toLowerStr (trimStr email0)
  if !(emailRegexTest email) then false
  else
    match splitOnChar '@' email with
    | [localPart, domain] =>
      if localPart = [] || decide (64 < localPart.length) then false
      else if domain = [] || !(domain.contains '.') then false
      else if domain.head? = some '.' || domain.getLast? = some '.'
          || domain.head? = some '-' || domain.getLast? = some '-' then false
      else
        let tld := (splitOnChar '.' domain).getLastD []
        decide (2 ≤ tld.length)
    | _ => false

/-- First maximal digit run of a string: the capture of `/(\d+)/`. -/
def firstDigitRun : Str → Option Str
  | [] => none
  | c :: rest =>
    if c.isDigit then some (c :: rest.takeWhile (fun d => d.isDigit))
    else firstDigitRun rest

/-- `parseInt` on a digit string. -/
def strToNat (s : Str) : Nat :=
  s.foldl (fun acc c => acc * 10 + (c.toNat - '0'.toNat)) 0

/-- The duration computation of `createZohoAppointment` / `rescheduleZohoAppointment`:
default 30 minutes, overridden by the first integer found in the free-text
`duration` field of the service (a falsy — absent or empty — field is skipped). -/
def durationOf (d : Option Str) : Nat :=
  match d with
  | none => 30
  | some s =>
    if s = [] then 30
    else
      match firstDigitRun s with
      | some run => strToNat run
      | none => 30

/-! ## Slot discovery engine (`findNextAvailableSlots`, src/index.js lines 507-644)

Calendar dates are modelled as natural day numbers: `formatDateForZoho`
and its re-parse in the function are a bijection between `Date` objects
(at local midnight) and `DD-Mon-YYYY` strings, so the cursor stored on
the session is modelled by the day number directly.  The Zoho
`availableslots` query is the oracle `provider : Nat → List Str` giving
the open time slots of each day. -/

/-- A slot produced by the scan: `uniqueId` is the composite
`slot_{counter}_{dateStr}_{time}`, modelled as its three components. -/
structure Slot where
  counter : Nat
  day : Nat
  time : Str
deriving DecidableEq, Repr

/-- The scan cursor persisted on the session:
`currentSlotDate`, `currentDateSlotIndex`, `allSlotsForCurrentDate`. -/
structure ScanCursor where
  curDay : Option Nat
  curIdx : Nat
  cache : Option (List Str)
deriving DecidableEq, Repr

/-- Result of one `findNextAvailableSlots` call, together with the
mutated cursor fields of the session. -/
structure ScanResult where
  slots : List Slot
  nextDay : Nat
  hasMore : Bool
  cursor : ScanCursor
deriving DecidableEq, Repr

/-- The inner `for` loop of the scan: drain up to `limit - acc.length`
slots from the cached day list `l` starting at index `idx`, giving each a
fresh running counter.  Returns the grown accumulator, the new index and
the new counter. -/
def drain (limit : Nat) (l : List Str) (day idx counter : Nat) (acc : List Slot) :
    List Slot × Nat × Nat :=
  let remaining := l.drop idx
  let k := min (limit - acc.length) remaining.length
  (acc ++ (remaining.take k).mapIdx (fun i t => ⟨counter + i, day, t⟩), idx + k, counter + k)

/-- The `while (slots.length < limit && currentDate <= endDate)` loop of
`findNextAvailableSlots`.  Returns `(slots, currentDate, index, cache)`;
the session's `currentSlotDate` equals the returned date at every loop
boundary of the source.  The loop advances the date by one day whenever
it recurses, so `endDay + 1 - day` bounds the iteration count; the first
argument is that structural bound, and on exhaustion (only reachable when
`day > endDay`) the returned value coincides with the loop's own exit
value, so for any sufficient bound the function is extensionally the JS
`while` loop. -/
def scanLoop (provider : Nat → List Str) (limit endDay : Nat) :
    Nat → Nat → Nat → Option (List Str) → List Slot → Nat →
    List Slot × Nat × Nat × Option (List Str)
  | 0, day, idx, cache, acc, _counter => (acc, day, idx, cache)
  | fuel + 1, day, idx, cache, acc, counter =>
    if acc.length < limit ∧ day ≤ endDay then
      let fetched :=
        match cache with
        | some l => some l
        | none => let l := provider day; if l.length = 0 then none else some l
      match fetched with
      | none =>
        -- no slots for this date, move to next day and `continue`
        scanLoop provider limit endDay fuel (day + 1) 0 none acc counter
      | some l =>
        let idx0 := match cache with | some _ => idx | none => 0
        let r := drain limit l day idx0 counter acc
        if l.length ≤ r.2.1 then
          -- all slots of this date shown: clear cache, advance the day
          scanLoop provider limit endDay fuel (day + 1) 0 none r.1 r.2.2
        else
          -- more slots remain on this date: stop here
          (r.1, day, r.2.1, some l)
    else
      (acc, day, idx, cache)

/-- `findNextAvailableSlots(session, startDate, limit, maxDaysToScan)`.
An unset cursor is initialized to the start date; otherwise the scan
resumes from the stored cursor date.  `endDate` is `startDate` plus
`maxDaysToScan` days. -/
def findNextAvailableSlots (provider : Nat → List Str) (cursor : ScanCursor)
    (startDay limit maxDays : Nat) : ScanResult :=
  let endDay := startDay + maxDays
  let c0 : ScanCursor :=
    match cursor.curDay with
    | none => ⟨some startDay, 0, none⟩
    | some _ => cursor
  let d := c0.curDay.getD startDay
  let r := scanLoop provider limit endDay (endDay + 1 - d + 1) d c0.curIdx c0.cache [] 0
  { slots := r.1
    nextDay := r.2.1
    hasMore := r.1.length == limit
    cursor := ⟨some r.2.1, r.2.2.1, r.2.2.2⟩ }

/-- The `show_more_slots` continuation of `AWAIT_RESCHEDULE_SLOT`
(src/index.js lines 1806-1827) repeated until `hasMore` is false: each
further call passes the previous `nextSearchDate` as start date and the
session cursor persists.  `none` when `fuel` calls were not enough to
reach `hasMore = false`. -/
def runCalls (provider : Nat → List Str) (limit maxDays : Nat) :
    Nat → Nat → ScanCursor → Option (List (List Slot))
  | 0, _, _ => none
  | fuel + 1, startDay, cursor =>
    let r := findNextAvailableSlots provider cursor startDay limit maxDays
    if r.hasMore then
      match runCalls provider limit maxDays fuel r.nextDay r.cursor with
      | some pages => some (r.slots :: pages)
      | none => none
    else
      some [r.slots]

/-- The chronological enumeration of all provider slots on days
`lo, lo+1, …, lo+n-1`, as `(day, time)` pairs. -/
def chrono (provider : Nat → List Str) : Nat → Nat → List (Nat × Str)
  | _, 0 => []
  | lo, n + 1 => (provider lo).map (fun t => (lo, t)) ++ chrono provider (lo + 1) n

/-- The part of the chronological enumeration not yet emitted by a scan
whose cursor stands at day `day`, index `idx`, up to day `D` inclusive. -/
def enumTail (provider : Nat → List Str) (day idx D : Nat) : List (Nat × Str) :=
  if day ≤ D then
    ((provider day).drop idx).map (fun t => (day, t)) ++ chrono provider (day + 1) (D - day)
  else []

/-- Projection of a slot to its `(day, time)` pair. -/
def Slot.pair (s : Slot) : Nat × Str := (s.day, s.time)

/-- Projection of a slot to the components of its composite unique id. -/
def Slot.uid (s : Slot) : Nat × Nat × Str := (s.counter, s.day, s.time)

theorem chrono_mem (provider : Nat → List Str) :
    ∀ n lo d t, (d, t) ∈ chrono provider lo n ↔ (lo ≤ d ∧ d < lo + n ∧ t ∈ provider d) := by
  intro n
  induction n with
  | zero => intro lo d t; simp [chrono]; omega
  | succ m ih =>
    intro lo d t
    simp only [chrono, List.mem_append, List.mem_map, ih]
    constructor
    · rintro (⟨x, hx, h⟩ | ⟨h1, h2, h3⟩)
      · cases h; exact ⟨le_refl _, by omega, hx⟩
      · exact ⟨by omega, by omega, h3⟩
    · rintro ⟨h1, h2, h3⟩
      rcases Nat.eq_or_lt_of_le h1 with h | h
      · exact Or.inl ⟨t, by rw [h]; exact h3, by rw [h]⟩
      · exact Or.inr ⟨h, by omega, h3⟩

theorem chrono_nodup (provider : Nat → List Str) (hnd : ∀ d, (provider d).Nodup) :
    ∀ n lo, (chrono provider lo n).Nodup := by
  intro n
  induction n with
  | zero => intro lo; simp [chrono]
  | succ m ih =>
    intro lo
    simp only [chrono]
    apply List.Nodup.append
    · exact (hnd lo).map (fun a b h => by cases h; rfl)
    · exact ih (lo + 1)
    · intro p hp hq
      obtain ⟨t, _, rfl⟩ := List.mem_map.mp hp
      have := (chrono_mem provider m (lo + 1) lo t).mp hq
      omega

theorem chrono_day_mono (provider : Nat → List Str) :
    ∀ n lo, (chrono provider lo n).Pairwise (fun a b => a.1 ≤ b.1) := by
  intro n
  induction n with
  | zero => intro lo; simp [chrono]
  | succ m ih =>
    intro lo
    simp only [chrono]
    rw [List.pairwise_append]
    refine ⟨?_, ih (lo + 1), ?_⟩
    · rw [List.pairwise_map]
      induction provider lo with
      | nil => exact List.Pairwise.nil
      | cons a l ihl => exact List.Pairwise.cons (fun _ _ => le_refl lo) ihl
    · intro a ha b hb
      obtain ⟨t, _, rfl⟩ := List.mem_map.mp ha
      have := (chrono_mem provider m (lo + 1) b.1 b.2).mp (by simpa using hb)
      simp only
      omega

theorem enumTail_zero (provider : Nat → List Str) {day D : Nat} (h : day ≤ D + 1) :
    enumTail provider day 0 D = chrono provider day (D + 1 - day) := by
  rcases Nat.lt_or_ge day (D + 1) with h1 | h1
  · have hle : day ≤ D := by omega
    have hn : D + 1 - day = (D - day) + 1 := by omega
    rw [hn]
    simp only [enumTail, if_pos hle, List.drop_zero, chrono]
  · have hd : day = D + 1 := by omega
    subst hd
    have hn : D + 1 - (D + 1) = 0 := by omega
    rw [hn]
    simp [enumTail, chrono]

theorem enumTail_split (provider : Nat → List Str) {day D : Nat} (hday : day ≤ D)
    (idx k : Nat) :
    enumTail provider day idx D =
      (((provider day).drop idx).take k).map (fun t => (day, t)) ++
        enumTail provider day (idx + k) D := by
  simp only [enumTail, if_pos hday]
  rw [← List.append_assoc, ← List.map_append]
  congr 2
  have hdd : (provider day).drop (idx + k) = ((provider day).drop idx).drop k := by
    rw [List.drop_drop]
  rw [hdd]
  exact (List.take_append_drop k _).symm

theorem enumTail_advance (provider : Nat → List Str) {day D : Nat} (hday : day ≤ D)
    (idx : Nat) (h : (provider day).drop idx = []) :
    enumTail provider day idx D = enumTail provider (day + 1) 0 D := by
  rw [enumTail_zero provider (show day + 1 ≤ D + 1 by omega)]
  simp only [enumTail, if_pos hday, h, List.map_nil, List.nil_append]
  congr 1
  omega

theorem mapIdx_pair_map (day : Nat) :
    ∀ (l : List Str) (f : Nat → Str → Slot), (∀ i t, (f i t).pair = (day, t)) →
      ((l.mapIdx f).map Slot.pair) = l.map (fun t => (day, t)) := by
  intro l
  induction l with
  | nil => intro f _; simp
  | cons a l ih =>
    intro f hf
    rw [List.mapIdx_cons]
    simp only [List.map_cons]
    rw [hf 0 a, ih (fun i => f (i + 1)) (fun i t => hf (i + 1) t)]

theorem enumTail_of_gt (provider : Nat → List Str) {day D : Nat} (h : D < day) (idx : Nat) :
    enumTail provider day idx D = [] := by
  simp [enumTail]
  omega

theorem scanLoop_fetch (provider : Nat → List Str) (limit endDay fuel day idx : Nat)
    (acc : List Slot) (counter : Nat)
    (hguard : acc.length < limit ∧ day ≤ endDay) (hp : (provider day).length ≠ 0) :
    scanLoop provider limit endDay (fuel + 1) day idx none acc counter =
      scanLoop provider limit endDay (fuel + 1) day 0 (some (provider day)) acc counter := by
  simp only [scanLoop]
  simp only [if_pos hguard]
  simp [hp]

theorem scanLoop_drain_eq (provider : Nat → List Str) (limit endDay fuel day idx : Nat)
    (acc : List Slot) (counter : Nat) (l : List Str)
    (hguard : acc.length < limit ∧ day ≤ endDay) :
    scanLoop provider limit endDay (fuel + 1) day idx (some l) acc counter =
      (if l.length ≤ idx + min (limit - acc.length) ((l.drop idx).length) then
        scanLoop provider limit endDay fuel (day + 1) 0 none
          (acc ++ (((l.drop idx).take
              (min (limit - acc.length) ((l.drop idx).length))).mapIdx
            (fun i t => (⟨counter + i, day, t⟩ : Slot))))
          (counter + min (limit - acc.length) ((l.drop idx).length))
      else
        (acc ++ (((l.drop idx).take
            (min (limit - acc.length) ((l.drop idx).length))).mapIdx
          (fun i t => (⟨counter + i, day, t⟩ : Slot))),
         day, idx + min (limit - acc.length) ((l.drop idx).length),
         some l)) := by
  rw [scanLoop]
  simp only [if_pos hguard, drain]

theorem scanLoop_spec (provider : Nat → List Str) (limit endDay : Nat) :
    ∀ fuel day idx cache acc counter,
      endDay + 1 - day ≤ fuel →
      day ≤ endDay + 1 →
      (∀ l, cache = some l → l = provider day ∧ idx < l.length) →
      (cache = none → idx = 0) →
      (day = endDay + 1 → cache = none) →
      acc.length ≤ limit →
      ∃ new day2 idx2 cache2,
        scanLoop provider limit endDay fuel day idx cache acc counter =
          (acc ++ new, day2, idx2, cache2) ∧
        acc.length + new.length ≤ limit ∧
        day ≤ day2 ∧ day2 ≤ endDay + 1 ∧
        (∀ l, cache2 = some l → l = provider day2 ∧ idx2 < l.length) ∧
        (cache2 = none → idx2 = 0) ∧
        (day2 = endDay + 1 → cache2 = none) ∧
        (∀ D, endDay ≤ D →
          new.map Slot.pair ++ enumTail provider day2 idx2 D = enumTail provider day idx D) ∧
        (acc.length + new.length < limit → day2 = endDay + 1) := by
  intro fuel
  induction fuel with
  | zero =>
    intro day idx cache acc counter hfuel hday hcoh hnone hend hacc
    have hd : day = endDay + 1 := by omega
    refine ⟨[], day, idx, cache, ?_, by simpa using hacc, le_refl day, hday,
      hcoh, hnone, hend, ?_, ?_⟩
    · simp [scanLoop]
    · intro D _; simp
    · intro _; exact hd
  | succ n ih =>
    intro day idx cache acc counter hfuel hday hcoh hnone hend hacc
    by_cases hguard : acc.length < limit ∧ day ≤ endDay
    · -- the common drain argument, for a coherent cache at (day, j)
      have main : ∀ j, j < (provider day).length →
          ∃ new day2 idx2 cache2,
            scanLoop provider limit endDay (n + 1) day j (some (provider day)) acc counter =
              (acc ++ new, day2, idx2, cache2) ∧
            acc.length + new.length ≤ limit ∧
            day ≤ day2 ∧ day2 ≤ endDay + 1 ∧
            (∀ l, cache2 = some l → l = provider day2 ∧ idx2 < l.length) ∧
            (cache2 = none → idx2 = 0) ∧
            (day2 = endDay + 1 → cache2 = none) ∧
            (∀ D, endDay ≤ D →
              new.map Slot.pair ++ enumTail provider day2 idx2 D =
                enumTail provider day j D) ∧
            (acc.length + new.length < limit → day2 = endDay + 1) := by
        intro j hj
        have hstep := scanLoop_drain_eq provider limit endDay n day j acc counter
          (provider day) hguard
        set k := min (limit - acc.length) (((provider day).drop j).length) with hk
        set drained := ((((provider day).drop j).take k).mapIdx
          (fun i t => (⟨counter + i, day, t⟩ : Slot))) with hdr
        have hk1 : k ≤ limit - acc.length := by rw [hk]; exact Nat.min_le_left _ _
        have hk2 : k ≤ ((provider day).drop j).length := by
          rw [hk]; exact Nat.min_le_right _ _
        have hdroplen : ((provider day).drop j).length = (provider day).length - j := by
          simp [List.length_drop]
        have hdlen : drained.length = k := by
          rw [hdr]
          rw [List.length_mapIdx, List.length_take]
          omega
        have hpair : drained.map Slot.pair =
            (((provider day).drop j).take k).map (fun t => (day, t)) := by
          rw [hdr]
          exact mapIdx_pair_map day _ _ (fun i t => rfl)
        by_cases hcmp : (provider day).length ≤ j + k
        · -- day exhausted: advance
          rw [if_pos hcmp] at hstep
          obtain ⟨new2, day2, idx2, cache2, heq2, h1, h2, h3, h4, h5, h6, h7, h8⟩ :=
            ih (day + 1) 0 none (acc ++ drained) (counter + k) (by omega) (by omega)
              (fun _ h => nomatch h) (fun _ => rfl) (fun _ => rfl)
              (by rw [List.length_append, hdlen]; omega)
          refine ⟨drained ++ new2, day2, idx2, cache2, ?_, ?_, by omega, h3, h4, h5, h6,
            ?_, ?_⟩
          · rw [hstep, heq2, List.append_assoc]
          · rw [List.length_append, hdlen] at h1
            rw [List.length_append, hdlen]
            omega
          · intro D hD
            have hdayD : day ≤ D := le_trans hguard.2 hD
            have hdropnil : (provider day).drop (j + k) = [] :=
              List.drop_eq_nil_of_le (by omega)
            rw [List.map_append, List.append_assoc, h7 D hD, hpair,
              ← enumTail_advance provider hdayD (j + k) hdropnil]
            exact (enumTail_split provider hdayD j k).symm
          · intro hlt
            apply h8
            rw [List.length_append, hdlen]
            rw [List.length_append] at hlt
            omega
        · -- more slots remain on this day: break
          rw [if_neg hcmp] at hstep
          refine ⟨drained, day, j + k, some (provider day), hstep, ?_, le_refl day,
            by omega, ?_, ?_, ?_, ?_, ?_⟩
          · rw [hdlen]; omega
          · intro l hl
            injection hl with hl
            subst hl
            exact ⟨rfl, by omega⟩
          · intro h; exact nomatch h
          · intro h; exact absurd h (by omega)
          · intro D hD
            rw [hpair]
            exact (enumTail_split provider (le_trans hguard.2 hD) j k).symm
          · intro hlt
            exfalso
            rw [hdlen] at hlt
            omega
      rcases cache with _ | l
      · -- cache empty at loop entry
        have hi : idx = 0 := hnone rfl
        subst hi
        by_cases hp : (provider day).length = 0
        · -- empty day: skip to the next day
          have hstep : scanLoop provider limit endDay (n + 1) day 0 none acc counter =
              scanLoop provider limit endDay n (day + 1) 0 none acc counter := by
            rw [scanLoop]
            simp only [if_pos hguard, hp]
            simp
          obtain ⟨new, day2, idx2, cache2, heq, h1, h2, h3, h4, h5, h6, h7, h8⟩ :=
            ih (day + 1) 0 none acc counter (by omega) (by omega)
              (fun _ h => nomatch h) (fun _ => rfl) (fun _ => rfl) hacc
          refine ⟨new, day2, idx2, cache2, by rw [hstep]; exact heq, h1, by omega, h3,
            h4, h5, h6, ?_, h8⟩
          intro D hD
          rw [h7 D hD]
          exact (enumTail_advance provider (le_trans hguard.2 hD) 0
            (by simp [List.length_eq_zero.mp hp])).symm
        · -- non-empty day: fetch, then drain from index 0
          rw [scanLoop_fetch provider limit endDay n day 0 acc counter hguard hp]
          exact main 0 (by omega)
      · -- cached day list
        obtain ⟨hl, hidx⟩ := hcoh l rfl
        subst hl
        exact main idx hidx
    · -- guard fails: exit
      refine ⟨[], day, idx, cache, ?_, by simpa using hacc, le_refl day, hday,
        hcoh, hnone, hend, ?_, ?_⟩
      · rw [scanLoop.eq_def]
        simp [if_neg hguard]
      · intro D _; simp
      · intro hlt
        have : ¬ day ≤ endDay := fun h => hguard ⟨hlt, h⟩
        omega

theorem scanLoop_length (provider : Nat → List Str) (limit endDay : Nat) :
    ∀ fuel day idx cache acc counter,
      acc.length ≤ limit →
      (scanLoop provider limit endDay fuel day idx cache acc counter).1.length ≤ limit := by
  intro fuel
  induction fuel with
  | zero => intro day idx cache acc counter hacc; simpa [scanLoop] using hacc
  | succ n ih =>
    intro day idx cache acc counter hacc
    by_cases hguard : acc.length < limit ∧ day ≤ endDay
    · have hdrain : ∀ (l : List Str) (j : Nat),
          (scanLoop provider limit endDay (n + 1) day j (some l) acc counter).1.length ≤
            limit := by
        intro l j
        rw [scanLoop_drain_eq provider limit endDay n day j acc counter l hguard]
        have hlen : (acc ++ (((l.drop j).take
            (min (limit - acc.length) ((l.drop j).length))).mapIdx
          (fun i t => (⟨counter + i, day, t⟩ : Slot)))).length ≤ limit := by
          rw [List.length_append, List.length_mapIdx, List.length_take]
          omega
        by_cases hcmp : l.length ≤ j + min (limit - acc.length) ((l.drop j).length)
        · rw [if_pos hcmp]
          exact ih _ _ _ _ _ hlen
        · rw [if_neg hcmp]
          exact hlen
      rcases cache with _ | l
      · by_cases hp : (provider day).length = 0
        · have hstep : scanLoop provider limit endDay (n + 1) day idx none acc counter =
              scanLoop provider limit endDay n (day + 1) 0 none acc counter := by
            rw [scanLoop]
            simp only [if_pos hguard, hp]
            simp
          rw [hstep]
          exact ih _ _ _ _ _ hacc
        · rw [scanLoop_fetch provider limit endDay n day idx acc counter hguard hp]
          exact hdrain (provider day) 0
      · exact hdrain l idx
    · rw [scanLoop.eq_def]
      simpa [if_neg hguard] using hacc

theorem findNext_spec (provider : Nat → List Str) (limit maxDays day idx : Nat)
    (cache : Option (List Str))
    (hcoh : ∀ l, cache = some l → l = provider day ∧ idx < l.length)
    (hnone : cache = none → idx = 0) :
    ∃ new day2 idx2 cache2,
      findNextAvailableSlots provider ⟨some day, idx, cache⟩ day limit maxDays =
        ⟨new, day2, new.length == limit, ⟨some day2, idx2, cache2⟩⟩ ∧
      new.length ≤ limit ∧
      day ≤ day2 ∧
      (∀ l, cache2 = some l → l = provider day2 ∧ idx2 < l.length) ∧
      (cache2 = none → idx2 = 0) ∧
      (∀ D, day + maxDays ≤ D →
        new.map Slot.pair ++ enumTail provider day2 idx2 D = enumTail provider day idx D) ∧
      (new.length < limit → day2 = day + maxDays + 1 ∧ cache2 = none ∧ idx2 = 0) := by
  obtain ⟨new, day2, idx2, cache2, heq, h1, h2, h3, h4, h5, h6, h7, h8⟩ :=
    scanLoop_spec provider limit (day + maxDays) (day + maxDays + 1 - day + 1) day idx cache
      [] 0 (by omega) (by omega) hcoh hnone (fun h => absurd h (by omega))
      (by simp)
  simp only [List.nil_append, List.length_nil, Nat.zero_add] at heq h1 h8
  refine ⟨new, day2, idx2, cache2, ?_, h1, h2, h4, h5, h7, ?_⟩
  · simp only [findNextAvailableSlots, Option.getD_some]
    rw [heq]
  · intro hlt
    have hd2 := h8 hlt
    have hc2 := h6 hd2
    exact ⟨hd2, hc2, h5 hc2⟩

theorem runCalls_spec (provider : Nat → List Str) (limit maxDays : Nat) :
    ∀ fuel day idx cache pages,
      (∀ l, cache = some l → l = provider day ∧ idx < l.length) →
      (cache = none → idx = 0) →
      runCalls provider limit maxDays fuel day ⟨some day, idx, cache⟩ = some pages →
      ∃ D, day + maxDays ≤ D ∧
        pages.flatten.map Slot.pair = enumTail provider day idx D := by
  intro fuel
  induction fuel with
  | zero => intro day idx cache pages _ _ h; exact absurd h (by simp [runCalls])
  | succ n ih =>
    intro day idx cache pages hcoh hnone hrun
    obtain ⟨new, day2, idx2, cache2, heq, h1, h2, h4, h5, h6, h7⟩ :=
      findNext_spec provider limit maxDays day idx cache hcoh hnone
    rw [runCalls, heq] at hrun
    simp only at hrun
    by_cases hm : (new.length == limit) = true
    · rw [if_pos hm] at hrun
      rcases hrec : runCalls provider limit maxDays n day2 ⟨some day2, idx2, cache2⟩ with
        _ | pages2
      · rw [hrec] at hrun; exact absurd hrun (by simp)
      · rw [hrec] at hrun
        injection hrun with hrun
        subst hrun
        obtain ⟨D, hD1, hD2⟩ := ih day2 idx2 cache2 pages2 h4 h5 hrec
        refine ⟨D, by omega, ?_⟩
        simp only [List.flatten_cons, List.map_append]
        rw [hD2]
        exact h6 D (by omega)
    · rw [if_neg hm] at hrun
      injection hrun with hrun
      subst hrun
      have hlt : new.length < limit := by
        rcases Nat.lt_or_ge new.length limit with h | h
        · exact h
        · exact absurd (beq_iff_eq.mpr (by omega)) hm
      obtain ⟨hd2, hc2, hi2⟩ := h7 hlt
      refine ⟨day + maxDays, le_refl _, ?_⟩
      have htail : enumTail provider day2 idx2 (day + maxDays) = [] := by
        rw [hd2, hi2]
        exact enumTail_of_gt provider (by omega) 0
      have := h6 (day + maxDays) (le_refl _)
      rw [htail, List.append_nil] at this
      simpa using this

theorem runCalls_fresh (provider : Nat → List Str) (limit maxDays fuel startDay : Nat) :
    runCalls provider limit maxDays fuel startDay ⟨none, 0, none⟩ =
      runCalls provider limit maxDays fuel startDay ⟨some startDay, 0, none⟩ := by
  cases fuel with
  | zero => rfl
  | succ n => rfl

/-- **C2.** Calling the slot-discovery function repeatedly with `limit = 3`
(passing each call's `nextSearchDate` as the next start date, as the
`show_more_slots` handler does) until `hasMore = false` yields pages whose
concatenation is exactly the chronological day-by-day enumeration of the
provider's open slots from the start day through some day `D` at least
`maxDaysToScan` days out: the composite slot identifiers are pairwise
distinct, every open slot within `maxDaysToScan` days appears, days are
scanned in non-decreasing order, and each page resumes exactly where the
previous one stopped (the pages concatenate with no gap and no overlap).
The provider is assumed not to list the same time twice on one day. -/
theorem claim_C2_pagination_exact (provider : Nat → List Str)
    (startDay maxDays fuel : Nat) (pages : List (List Slot))
    (hnd : ∀ d, (provider d).Nodup)
    (hrun : runCalls provider 3 maxDays fuel startDay ⟨none, 0, none⟩ = some pages) :
    ∃ D, startDay + maxDays ≤ D ∧
      pages.flatten.map Slot.pair = chrono provider startDay (D + 1 - startDay) ∧
      (pages.flatten.map Slot.uid).Nodup ∧
      (∀ d t, startDay ≤ d → d ≤ startDay + maxDays → t ∈ provider d →
        (d, t) ∈ pages.flatten.map Slot.pair) ∧
      (pages.flatten.map Slot.pair).Pairwise (fun a b => a.1 ≤ b.1) := by
  rw [runCalls_fresh] at hrun
  obtain ⟨D, hD, hEq⟩ := runCalls_spec provider 3 maxDays fuel startDay 0 none pages
    (fun _ h => nomatch h) (fun _ => rfl) hrun
  rw [enumTail_zero provider (by omega)] at hEq
  refine ⟨D, hD, hEq, ?_, ?_, ?_⟩
  · have hnodup : (pages.flatten.map Slot.pair).Nodup := by
      rw [hEq]; exact chrono_nodup provider hnd _ _
    have hcomp : pages.flatten.map Slot.pair =
        (pages.flatten.map Slot.uid).map (fun u => (u.2.1, u.2.2)) := by
      rw [List.map_map]; rfl
    rw [hcomp] at hnodup
    exact hnodup.of_map
  · intro d t hd1 hd2 ht
    rw [hEq]
    exact (chrono_mem provider _ startDay d t).mpr ⟨hd1, by omega, ht⟩
  · rw [hEq]
    exact chrono_day_mono provider _ _

/-- A concrete mock provider for the pagination witness:
four slots on day 0, one on day 1, none later. -/
def provC2 : Nat → List Str := fun d =>
  if d = 0 then [['A'], ['B'], ['C'], ['D']]
  else if d = 1 then [['E']] else []

/-- The pages produced by `runCalls provC2 3 5 10 0` on a fresh cursor. -/
def pagesC2 : List (List Slot) :=
  [[⟨0, 0, ['A']⟩, ⟨1, 0, ['B']⟩, ⟨2, 0, ['C']⟩], [⟨0, 0, ['D']⟩, ⟨1, 1, ['E']⟩]]

theorem claim_C2_pagination_exact_witness :
    ((∀ d, (provC2 d).Nodup) ∧
      runCalls provC2 3 5 10 0 ⟨none, 0, none⟩ = some pagesC2) ∧
    (∃ D, 0 + 5 ≤ D ∧
      pagesC2.flatten.map Slot.pair = chrono provC2 0 (D + 1 - 0) ∧
      (pagesC2.flatten.map Slot.uid).Nodup ∧
      (∀ d t, 0 ≤ d → d ≤ 0 + 5 → t ∈ provC2 d →
        (d, t) ∈ pagesC2.flatten.map Slot.pair) ∧
      (pagesC2.flatten.map Slot.pair).Pairwise (fun a b => a.1 ≤ b.1)) := by
  have hnd : ∀ d, (provC2 d).Nodup := by
    intro d
    match d with
    | 0 => decide
    | 1 => decide
    | (n + 2) => simp [provC2]
  have hrun : runCalls provC2 3 5 10 0 ⟨none, 0, none⟩ = some pagesC2 := by decide
  exact ⟨⟨hnd, hrun⟩, claim_C2_pagination_exact provC2 0 5 10 pagesC2 hnd hrun⟩

/-- **C3.** For every invocation of `findNextAvailableSlots`, `hasMore` is
true exactly when the number of returned slots equals the requested
`limit`; the number of returned slots never exceeds `limit`, so a scan
that ran out of days with fewer than `limit` slots reports
`hasMore = false` on its partial list. -/
theorem claim_C3_hasMore_iff_limit (provider : Nat → List Str) (cursor : ScanCursor)
    (startDay limit maxDays : Nat) :
    ((findNextAvailableSlots provider cursor startDay limit maxDays).hasMore = true ↔
      (findNextAvailableSlots provider cursor startDay limit maxDays).slots.length = limit) ∧
    (findNextAvailableSlots provider cursor startDay limit maxDays).slots.length ≤ limit := by
  constructor
  · have hmore : (findNextAvailableSlots provider cursor startDay limit maxDays).hasMore =
        ((findNextAvailableSlots provider cursor startDay limit maxDays).slots.length ==
          limit) := rfl
    rw [hmore]
    exact beq_iff_eq
  · have hslots : (findNextAvailableSlots provider cursor startDay limit maxDays).slots =
        (scanLoop provider limit (startDay + maxDays)
          (startDay + maxDays + 1 -
            ((match cursor.curDay with
              | none => (⟨some startDay, 0, none⟩ : ScanCursor)
              | some _ => cursor).curDay.getD startDay) + 1)
          ((match cursor.curDay with
            | none => (⟨some startDay, 0, none⟩ : ScanCursor)
            | some _ => cursor).curDay.getD startDay)
          (match cursor.curDay with
            | none => (⟨some startDay, 0, none⟩ : ScanCursor)
            | some _ => cursor).curIdx
          (match cursor.curDay with
            | none => (⟨some startDay, 0, none⟩ : ScanCursor)
            | some _ => cursor).cache
          [] 0).1 := rfl
    rw [hslots]
    exact scanLoop_length provider limit _ _ _ _ _ _ _ (by simp)

/-! ## Time parsing: the regex `(\d{1,2}):(\d{2})(?:\s*(AM|PM))?` with the `i`
flag, used by `createZohoAppointment` (src/index.js line 1986) and the
`AWAIT_RESCHEDULE_SLOT` handler (line 1858). -/

inductive Meridiem
  | am
  | pm
deriving DecidableEq, Repr, Fintype

/-- The three captures of a successful time match: the parsed hour
(`parseInt(match[1])`), the raw two-digit minute capture, and the
optional meridiem. -/
structure TimeMatch where
  hour : Nat
  minute : Str
  mer : Option Meridiem
deriving DecidableEq, Repr

def charDigit (c : Char) : Nat := c.toNat - '0'.toNat

/-- The optional group `\s*(AM|PM)` (case-insensitive): skip whitespace,
then read a meridiem; backtracking over `\s*` cannot help because a
whitespace character is never `A`/`P`. -/
def merAt (s : Str) : Option Meridiem :=
  match s.dropWhile Char.isWhitespace with
  | c1 :: c2 :: _ =>
    if (c1 = 'A' ∨ c1 = 'a') ∧ (c2 = 'M' ∨ c2 = 'm') then some Meridiem.am
    else if (c1 = 'P' ∨ c1 = 'p') ∧ (c2 = 'M' ∨ c2 = 'm') then some Meridiem.pm
    else none
  | _ => none

/-- After the hour digits: a literal `:`, exactly two digits, then the
optional meridiem group. -/
def matchTail (hour : Nat) (rest : Str) : Option TimeMatch :=
  match rest with
  | ':' :: m1 :: m2 :: rest2 =>
    if m1.isDigit ∧ m2.isDigit then some ⟨hour, [m1, m2], merAt rest2⟩ else none
  | _ => none

/-- The regex attempted at one start position: `\d{1,2}` is greedy, so a
two-digit hour is tried first and backtracks to one digit when the colon
does not follow. -/
def tryMatchAt : Str → Option TimeMatch
  | d1 :: d2 :: rest =>
    if d1.isDigit then
      if d2.isDigit then
        match matchTail (10 * charDigit d1 + charDigit d2) rest with
        | some t => some t
        | none => matchTail (charDigit d1) (d2 :: rest)
      else matchTail (charDigit d1) (d2 :: rest)
    else none
  | _ => none

/-- `String.prototype.match`: try each start position left to right. -/
def findTimeMatch : Str → Option TimeMatch
  | [] => none
  | c :: rest =>
    match tryMatchAt (c :: rest) with
    | some t => some t
    | none => findTimeMatch rest

/-- 12→24 hour conversion of `createZohoAppointment` (src/index.js lines
1999-2004): `PM` and hour ≠ 12 adds 12, else `AM` and hour = 12 resets
to 0; no meridiem leaves the hour as is. -/
def convertHourNe12 (hour : Nat) (mer : Option Meridiem) : Nat :=
  if mer = some Meridiem.pm ∧ hour ≠ 12 then hour + 12
  else if mer = some Meridiem.am ∧ hour = 12 then 0
  else hour

/-- 12→24 hour conversion of the `AWAIT_RESCHEDULE_SLOT` handler
(src/index.js lines 1863-1866): two successive `if`s inside
`if (ampm)`, with `hour < 12` instead of `hour !== 12`. -/
def convertHourLt12 (hour : Nat) (mer : Option Meridiem) : Nat :=
  match mer with
  | none => hour
  | some m =>
    let h1 := if m = Meridiem.pm ∧ hour < 12 then hour + 12 else hour
    if m = Meridiem.am ∧ h1 = 12 then 0 else h1

/-- `String(n)` in decimal. -/
def natToStr (n : Nat) : Str := Nat.toDigits 10 n

/-- `.padStart(2, "0")`. -/
def pad2 (s : Str) : Str :=
  if s.length < 2 then List.replicate (2 - s.length) '0' ++ s else s

/-- The `HH:MM` normalization `createZohoAppointment` performs while
assembling `from_time`: match the slot time against the regex, convert
the hour to 24-hour form, pad it to two digits and keep the raw minute
capture (`none` when the regex does not match, the `bookingFailed`
path). -/
def to24 (s : Str) : Option Str :=
  match findTimeMatch s with
  | none => none
  | some t => some (pad2 (natToStr (convertHourNe12 t.hour t.mer)) ++ ':' :: t.minute)

/-- Rendering of a meridiem suffix. -/
def merStr : Meridiem → Str
  | Meridiem.am => ['A', 'M']
  | Meridiem.pm => ['P', 'M']

set_option maxHeartbeats 4000000 in
/-- **C4.** Normalization of 12-hour times to 24-hour `HH:MM`:
(1) for every 12-hour time string `H:MM` / `HH:MM` with an `AM`/`PM`
suffix (hour 1–12, minute 0–59), the conversion adds 12 exactly when the
suffix is `PM` and the hour is not 12, and yields hour 0 exactly when the
suffix is `AM` and the hour is 12; (2) a suffix-free `HH:MM` string is
left unchanged; (3)-(5) the three examples of the spec; (6) the
`AWAIT_RESCHEDULE_SLOT` variant of the conversion (`hour < 12`) agrees
with the booking variant (`hour !== 12`) on every 12-hour input. -/
theorem claim_C4_time_normalization :
    (∀ (h : Fin 13), 1 ≤ h.val → ∀ (mm : Fin 60) (m : Meridiem) (padded : Bool),
      to24 ((if padded then pad2 (natToStr h.val) else natToStr h.val) ++
          ':' :: pad2 (natToStr mm.val) ++ ' ' :: merStr m) =
        some (pad2 (natToStr
            (if m = Meridiem.pm ∧ h.val ≠ 12 then h.val + 12
             else if m = Meridiem.am ∧ h.val = 12 then 0 else h.val)) ++
          ':' :: pad2 (natToStr mm.val))) ∧
    (∀ (h : Fin 24) (mm : Fin 60),
      to24 (pad2 (natToStr h.val) ++ ':' :: pad2 (natToStr mm.val)) =
        some (pad2 (natToStr h.val) ++ ':' :: pad2 (natToStr mm.val))) ∧
    to24 ('0' :: '2' :: ':' :: '3' :: '0' :: ' ' :: 'P' :: 'M' :: []) =
      some ('1' :: '4' :: ':' :: '3' :: '0' :: []) ∧
    to24 ('1' :: '2' :: ':' :: '0' :: '0' :: ' ' :: 'A' :: 'M' :: []) =
      some ('0' :: '0' :: ':' :: '0' :: '0' :: []) ∧
    to24 ('1' :: '2' :: ':' :: '0' :: '0' :: ' ' :: 'P' :: 'M' :: []) =
      some ('1' :: '2' :: ':' :: '0' :: '0' :: []) ∧
    (∀ (h : Fin 13), 1 ≤ h.val → ∀ (mer : Option Meridiem),
      convertHourLt12 h.val mer = convertHourNe12 h.val mer) := by
  refine ⟨by decide, by decide, by decide, by decide, by decide, by decide⟩

theorem claim_C4_time_normalization_witness :
    1 ≤ (2 : Fin 13).val ∧
    to24 ((if (true : Bool) then pad2 (natToStr (2 : Fin 13).val)
        else natToStr (2 : Fin 13).val) ++
        ':' :: pad2 (natToStr (30 : Fin 60).val) ++ ' ' :: merStr Meridiem.pm) =
      some (pad2 (natToStr
          (if Meridiem.pm = Meridiem.pm ∧ (2 : Fin 13).val ≠ 12 then (2 : Fin 13).val + 12
           else if Meridiem.pm = Meridiem.am ∧ (2 : Fin 13).val = 12 then 0
           else (2 : Fin 13).val)) ++
        ':' :: pad2 (natToStr (30 : Fin 60).val)) :=
  ⟨by decide, claim_C4_time_normalization.1 2 (by decide) 30 Meridiem.pm true⟩

/-! ## Appointment end-time computation (`createZohoAppointment`
src/index.js lines 2010-2059, `rescheduleZohoAppointment` lines
2429-2462).  `new Date(y, m, d, h, min)` and its re-rendering are
modelled through milliseconds since an epoch day 0; `getTime()`
arithmetic is exact on that representation. -/

/-- The `from_time` / `to_time` pair of `createZohoAppointment`, as
(day, hour, minute) triples: `from_time` is rendered directly from the
selected date and the converted slot hour/minute, `to_time` from
`fromDateObj.getTime() + duration * 60000`. -/
structure ApptPayload where
  fromDay : Nat
  fromHour : Nat
  fromMinute : Nat
  toDay : Nat
  toHour : Nat
  toMinute : Nat
deriving DecidableEq, Repr

def createApptTimes (sduration : Option Str) (dayNum hour minute : Nat) : ApptPayload :=
  let duration : Nat :=
    match sduration with
    | none => 30
    | some s =>
      if s = [] then 30
      else
        match firstDigitRun s with
        | some run => strToNat run
        | none => 30
  let fromMs := ((dayNum * 24 + hour) * 60 + minute) * 60000
  let toMs := fromMs + duration * 60000
  ⟨dayNum, hour, minute, toMs / 86400000, toMs % 86400000 / 3600000, toMs % 3600000 / 60000⟩

/-- The `end_time` of `rescheduleZohoAppointment`: the parsed whole-minute
`start_time` plus the service duration, re-rendered by
`formatZohoDateTime`. -/
def rescheduleApptTimes (sduration : Option Str) (startMin : Nat) : Nat × Nat × Nat :=
  let duration : Nat :=
    match sduration with
    | none => 30
    | some s =>
      if s = [] then 30
      else
        match firstDigitRun s with
        | some run => strToNat run
        | none => 30
  let endMs := startMin * 60000 + duration * 60000
  (endMs / 86400000, endMs % 86400000 / 3600000, endMs % 3600000 / 60000)

/-- **C5.** The appointment end time sent to the provider equals the
start time plus the service duration in minutes, for both the booking
and the reschedule command; the duration is the first integer matched in
the service's free-text duration field and 30 when the field is absent,
empty or contains no integer (witnessed on four representative duration
fields). -/
theorem claim_C5_end_time_is_start_plus_duration :
    (∀ (sduration : Option Str) (dayNum hour minute : Nat),
      (createApptTimes sduration dayNum hour minute).toDay * 86400000 +
        (createApptTimes sduration dayNum hour minute).toHour * 3600000 +
        (createApptTimes sduration dayNum hour minute).toMinute * 60000 =
      ((createApptTimes sduration dayNum hour minute).fromDay * 24 +
        (createApptTimes sduration dayNum hour minute).fromHour) * 60 * 60000 +
        (createApptTimes sduration dayNum hour minute).fromMinute * 60000 +
        durationOf sduration * 60000) ∧
    (∀ (sduration : Option Str) (startMin : Nat),
      (rescheduleApptTimes sduration startMin).1 * 86400000 +
        (rescheduleApptTimes sduration startMin).2.1 * 3600000 +
        (rescheduleApptTimes sduration startMin).2.2 * 60000 =
      startMin * 60000 + durationOf sduration * 60000) ∧
    durationOf (some ('4' :: '5' :: ' ' :: 'm' :: 'i' :: 'n' :: 's' :: [])) = 45 ∧
    durationOf (some ('1' :: ' ' :: 'h' :: 'r' :: ' ' :: '3' :: '0' :: [])) = 1 ∧
    durationOf (some ('n' :: 'o' :: 'n' :: 'e' :: [])) = 30 ∧
    durationOf none = 30 := by
  refine ⟨?_, ?_, by decide, by decide, by decide, by decide⟩
  · intro sduration dayNum hour minute
    have hdur : (match sduration with
        | none => (30 : Nat)
        | some s =>
          if s = [] then 30
          else
            match firstDigitRun s with
            | some run => strToNat run
            | none => 30) = durationOf sduration := rfl
    simp only [createApptTimes]
    rw [hdur]
    omega
  · intro sduration startMin
    have hdur : (match sduration with
        | none => (30 : Nat)
        | some s =>
          if s = [] then 30
          else
            match firstDigitRun s with
            | some run => strToNat run
            | none => 30) = durationOf sduration := rfl
    simp only [rescheduleApptTimes]
    rw [hdur]
    omega

/-- Characters are equal exactly when their code points are. -/
theorem charEqIffToNat (c d : Char) : (c = d) ↔ c.val.toNat = d.val.toNat := by
  constructor
  · intro h; rw [h]
  · intro h
    apply Char.ext
    rw [UInt32.ext_iff]
    exact h

/-- A digit character is between `'6'` and `'9'` exactly when it is one
of `'6'`, `'7'`, `'8'`, `'9'`. -/
theorem digit_range (c : Char) (hd : c.isDigit = true) :
    (('6' ≤ c && c ≤ '9') = true) ↔ (c = '6' ∨ c = '7' ∨ c = '8' ∨ c = '9') := by
  have h1 : c.isDigit = ('0' ≤ c && c ≤ '9') := rfl
  rw [h1] at hd
  simp only [Bool.and_eq_true, decide_eq_true_eq] at hd ⊢
  have hlow : (48 : Nat) ≤ c.val.toNat := hd.1
  have hhigh : c.val.toNat ≤ 57 := hd.2
  rw [charEqIffToNat c '6', charEqIffToNat c '7', charEqIffToNat c '8', charEqIffToNat c '9']
  have hv6 : ('6' : Char).val.toNat = 54 := by decide
  have hv7 : ('7' : Char).val.toNat = 55 := by decide
  have hv8 : ('8' : Char).val.toNat = 56 := by decide
  have hv9 : ('9' : Char).val.toNat = 57 := by decide
  rw [hv6, hv7, hv8, hv9]
  constructor
  · intro h
    have ha : (54 : Nat) ≤ c.val.toNat := h.1
    have hb : c.val.toNat ≤ 57 := h.2
    omega
  · intro h
    constructor
    · show ('6' : Char).val.toNat ≤ c.val.toNat
      omega
    · show c.val.toNat ≤ ('9' : Char).val.toNat
      omega

/-- `validatePhone` accepts an input exactly when stripping all
non-digit characters leaves exactly 10 digits whose first digit is 6, 7,
8 or 9. -/
theorem validatePhone_iff (s : Str) :
    validatePhone s = true ↔
      ((digitsOf s).length = 10 ∧
        ∃ c rest, digitsOf s = c :: rest ∧ (c = '6' ∨ c = '7' ∨ c = '8' ∨ c = '9')) := by
  constructor
  · intro hv
    unfold validatePhone at hv
    by_cases hlen : (digitsOf s).length ≠ 10
    · rw [if_pos hlen] at hv
      exact absurd hv (by simp)
    · rw [if_neg hlen] at hv
      push_neg at hlen
      refine ⟨hlen, ?_⟩
      rcases hd : digitsOf s with _ | ⟨c, rest⟩
      · rw [hd] at hlen; simp at hlen
      · rw [hd] at hv
        have hv1 : (('6' ≤ c && c ≤ '9') && rest.length == 9 &&
            rest.all (fun d => d.isDigit)) = true := hv
        have hrange : ('6' ≤ c && c ≤ '9') = true :=
          ((Bool.and_eq_true _ _ ▸ ((Bool.and_eq_true _ _ ▸ hv1).1 :
            (('6' ≤ c && c ≤ '9') && rest.length == 9) = true)).1 :
            ('6' ≤ c && c ≤ '9') = true)
        have hcdig : c.isDigit = true := by
          have hmem : c ∈ digitsOf s := by rw [hd]; exact List.mem_cons_self c rest
          exact (List.mem_filter.mp hmem).2
        exact ⟨c, rest, rfl, (digit_range c hcdig).mp hrange⟩
  · rintro ⟨hlen, c, rest, hd, hor⟩
    unfold validatePhone
    rw [if_neg (by omega)]
    show mobileRegexTest (digitsOf s) = true
    rw [hd]
    have hcdig : c.isDigit = true := by
      rcases hor with h | h | h | h <;> rw [h] <;> decide
    have hlen9 : rest.length = 9 := by
      rw [hd] at hlen
      simpa using hlen
    have hall : rest.all (fun d => d.isDigit) = true := by
      apply List.all_eq_true.mpr
      intro a ha
      have hmem : a ∈ digitsOf s := by
        rw [hd]
        exact List.mem_cons_of_mem c ha
      exact (List.mem_filter.mp hmem).2
    rw [mobileRegexTest]
    rw [(digit_range c hcdig).mpr hor, beq_iff_eq.mpr hlen9, hall]
    rfl

/-! ## Outbound list-message builders (src/index.js lines 240-505, 667-696,
2332-2385) and the paged list rows assembled inline by the dispatch
(lines 1204-1215, 1230-1251, 1324-1338, 1362-1380).  Only the rows of
each interactive list matter to the claims; translated strings
(`t(session, key)`) are passed in as parameters. -/

/-- One row of an interactive list message. -/
structure Row where
  rid : Str
  title : Str
  descr : Str
deriving DecidableEq, Repr

def ellipsis : Str := '.' :: '.' :: '.' :: []

/-- `t.length > 24 ? t.slice(0, 21) + "..." : t`, the truncation applied
by `waServiceList`, `waMonthList`, `waDateList`, `waSlotList` and
`waSlotListWithShowMore`. -/
def truncTitle (t : Str) : Str := if 24 < t.length then t.take 21 ++ ellipsis else t

/-- A Zoho service as used by the bot. -/
structure Service where
  sid : Str
  name : Str
  serviceType : Option Str
  sduration : Option Str
  price : Option Nat
  assignedStaffs : List Str
  assignedGroups : List Str
  letCustomerSelectStaff : Bool
deriving DecidableEq, Repr

structure Staff where
  stid : Str
  name : Str
  email : Option Str
  phone : Option Str
deriving DecidableEq, Repr

structure MonthItem where
  mid : Str
  label : Str
  year : Nat
  month : Nat
deriving DecidableEq, Repr

structure DateItem where
  did : Str
  label : Str
  rawDate : Nat
  slotsCount : Nat
deriving DecidableEq, Repr

structure SlotItem where
  slid : Str
  label : Str
  time : Str
deriving DecidableEq, Repr

structure Appt where
  bookingId : Str
  serviceId : Str
  staffId : Str
  serviceName : Str
  startRender : Str
deriving DecidableEq, Repr

/-- Rows of `waServiceList`: `services.slice(0, 10)`, truncated titles,
description `s.duration || s.service_type`. -/
def waServiceListRows (services : List Service) : List Row :=
  (services.take 10).map (fun s =>
    ⟨s.sid, truncTitle s.name,
      (let d := s.sduration.getD []
       if d ≠ [] then d else s.serviceType.getD [])⟩)

def staffIdTag : Str := 's' :: 't' :: 'a' :: 'f' :: 'f' :: '_' :: []

/-- Rows of `waStaffList`: `staffs.map(...)` — no `slice(0, 10)` cap and
no title truncation; description `s.email || s.phone || ""`. -/
def waStaffListRows (staffs : List Staff) : List Row :=
  staffs.map (fun s =>
    ⟨staffIdTag ++ s.stid, s.name,
      (let e := s.email.getD []
       if e ≠ [] then e
       else
         let p := s.phone.getD []
         if p ≠ [] then p else [])⟩)

/-- Rows of `waMonthList`: `months.slice(0, 10)`, truncated labels. -/
def waMonthListRows (months : List MonthItem) : List Row :=
  (months.take 10).map (fun m => ⟨m.mid, truncTitle m.label, []⟩)

/-- Rows of `waDateList`: `dates.slice(0, 10)`, truncated labels; the
description is the translated `slotsAvailable` message. -/
def waDateListRows (dates : List DateItem) (slotsAvailDescr : Nat → Str) : List Row :=
  (dates.take 10).map (fun d => ⟨d.did, truncTitle d.label, slotsAvailDescr d.slotsCount⟩)

/-- Rows of `waSlotList`: `slots.slice(0, 10)`, truncated labels. -/
def waSlotListRows (slots : List SlotItem) : List Row :=
  (slots.take 10).map (fun s => ⟨s.slid, truncTitle s.label, []⟩)

def showMoreSlotsId : Str :=
  's' :: 'h' :: 'o' :: 'w' :: '_' :: 'm' :: 'o' :: 'r' :: 'e' :: '_' ::
    's' :: 'l' :: 'o' :: 't' :: 's' :: []

def showMoreDatesId : Str :=
  's' :: 'h' :: 'o' :: 'w' :: '_' :: 'm' :: 'o' :: 'r' :: 'e' :: '_' ::
    'd' :: 'a' :: 't' :: 'e' :: 's' :: []

/-- Rows of `waSlotListWithShowMore`: every passed slot (no cap in the
builder; its callers pass at most `limit = 3`), truncated labels, plus a
synthetic `show_more_slots` row when `hasMore`.  Slots are passed as
(id, label) pairs. -/
def waSlotListWithShowMoreRows (slots : List (Str × Str)) (hasMore : Bool)
    (showMoreTitle : Str) : List Row :=
  slots.map (fun s => ⟨s.1, truncTitle s.2, []⟩) ++
    (if hasMore then [⟨showMoreSlotsId, showMoreTitle, []⟩] else [])

/-- The `AWAIT_MONTH` / `AWAIT_DATE` date paging: a 9-slice of the
available dates through `waDateList`, plus a pushed `show_more_dates`
row when more remain (page size 9, so at most 10 rows). -/
def datePageRows (dates : List DateItem) (page : Nat) (slotsAvailDescr : Nat → Str)
    (showMoreTitle : Str) : List Row :=
  waDateListRows ((dates.drop (page * 9)).take 9) slotsAvailDescr ++
    (if page * 9 + 9 < dates.length then [⟨showMoreDatesId, showMoreTitle, []⟩] else [])

/-- The `AWAIT_DATE` / `AWAIT_SLOT` slot paging: a 9-slice of the cached
slots through `waSlotList`, plus a pushed `show_more_slots` row when
more remain. -/
def slotPageRows (slots : List SlotItem) (page : Nat) (showMoreTitle : Str) : List Row :=
  waSlotListRows ((slots.drop (page * 9)).take 9) ++
    (if page * 9 + 9 < slots.length then [⟨showMoreSlotsId, showMoreTitle, []⟩] else [])

def apptTag : Str := '_' :: 'a' :: 'p' :: 'p' :: 't' :: '_' :: []

def defaultApptTitle : Str :=
  'A' :: 'p' :: 'p' :: 'o' :: 'i' :: 'n' :: 't' :: 'm' :: 'e' :: 'n' :: 't' :: []

def showMoreApptsId (purpose : Str) (nextPage : Nat) : Str :=
  ('s' :: 'h' :: 'o' :: 'w' :: '_' :: 'm' :: 'o' :: 'r' :: 'e' :: '_' ::
    'a' :: 'p' :: 'p' :: 't' :: 's' :: '_' :: []) ++ purpose ++ '_' :: natToStr nextPage

/-- Rows of `waAppointmentList`: a 10-slice of the appointments, titles
`(service_name || "Appointment").slice(0, 24)` (no ellipsis), plus a
show-more row when further appointments remain — up to 11 rows. -/
def waAppointmentListRows (appts : List Appt) (page : Nat) (purpose : Str)
    (showMoreTitle : Str) : List Row :=
  ((appts.drop (page * 10)).take 10).map (fun a =>
    ⟨purpose ++ apptTag ++ a.bookingId ++ '_' :: a.serviceId ++ '_' :: a.staffId,
     (if a.serviceName = [] then defaultApptTitle else a.serviceName).take 24,
     a.startRender⟩) ++
    (if page * 10 + 10 < appts.length
     then [⟨showMoreApptsId purpose (page + 1), showMoreTitle, []⟩] else [])

/-- An eleven-member staff roster with over-long names. -/
def staffC8 : List Staff :=
  (List.range 11).map (fun i => ⟨natToStr i, List.replicate 30 'x', none, none⟩)

/-- **C8, counterexample.** `waStaffList` applies neither the 10-row cap
nor the title truncation: eleven staff members produce eleven rows, and a
30-character name survives untruncated (an output title longer than 24
characters, impossible under the claim). -/
theorem claim_C8_counterexample :
    (waStaffListRows staffC8).length = 11 ∧
    ∃ r, r ∈ waStaffListRows staffC8 ∧ 24 < r.title.length := by decide

/-- **C8, amended.** The service, month, date and slot list builders cap
their rows at 10 and truncate over-long titles to 21 characters plus an
ellipsis; the paged date/slot lists emit at most 9 data rows plus one
show-more row; the appointment list emits at most 10 data rows plus one
show-more row (11 total) and truncates titles to 24 characters without
an ellipsis; the staff list applies no cap and no truncation. -/
theorem claim_C8_caps_amended :
    (∀ services, (waServiceListRows services).length ≤ 10) ∧
    (∀ services r, r ∈ waServiceListRows services →
      ∃ s, s ∈ services ∧ r.title = truncTitle s.name) ∧
    (∀ months, (waMonthListRows months).length ≤ 10) ∧
    (∀ months r, r ∈ waMonthListRows months →
      ∃ m, m ∈ months ∧ r.title = truncTitle m.label) ∧
    (∀ dates f, (waDateListRows dates f).length ≤ 10) ∧
    (∀ dates f r, r ∈ waDateListRows dates f →
      ∃ d, d ∈ dates ∧ r.title = truncTitle d.label) ∧
    (∀ slots, (waSlotListRows slots).length ≤ 10) ∧
    (∀ slots r, r ∈ waSlotListRows slots →
      ∃ sl, sl ∈ slots ∧ r.title = truncTitle sl.label) ∧
    (∀ dates page f t, (datePageRows dates page f t).length ≤ 10) ∧
    (∀ slots page t, (slotPageRows slots page t).length ≤ 10) ∧
    (∀ slots hm t, (waSlotListWithShowMoreRows slots hm t).length ≤ slots.length + 1) ∧
    (∀ slots hm t r, r ∈ waSlotListWithShowMoreRows slots hm t →
      r.rid = showMoreSlotsId ∨ ∃ sl, sl ∈ slots ∧ r.title = truncTitle sl.2) ∧
    (∀ appts page purpose t,
      (waAppointmentListRows appts page purpose t).length ≤ 11) ∧
    (∀ appts page purpose t r, r ∈ waAppointmentListRows appts page purpose t →
      r.rid = showMoreApptsId purpose (page + 1) ∨
        ∃ a, a ∈ appts ∧
          r.title = (if a.serviceName = [] then defaultApptTitle else a.serviceName).take 24) ∧
    (∀ staffs, (waStaffListRows staffs).length = staffs.length) ∧
    (∀ staffs r, r ∈ waStaffListRows staffs → ∃ st, st ∈ staffs ∧ r.title = st.name) ∧
    (∀ t1, (truncTitle t1).length ≤ 24 ∧
      (24 < t1.length → truncTitle t1 = t1.take 21 ++ ellipsis) ∧
      (t1.length ≤ 24 → truncTitle t1 = t1)) := by
  refine ⟨?_, ?_, ?_, ?_, ?_, ?_, ?_, ?_, ?_, ?_, ?_, ?_, ?_, ?_, ?_, ?_, ?_⟩
  · intro services
    rw [waServiceListRows, List.length_map, List.length_take]; omega
  · intro services r hr
    obtain ⟨s, hs, rfl⟩ := List.mem_map.mp hr
    exact ⟨s, List.mem_of_mem_take hs, rfl⟩
  · intro months
    rw [waMonthListRows, List.length_map, List.length_take]; omega
  · intro months r hr
    obtain ⟨m, hm, rfl⟩ := List.mem_map.mp hr
    exact ⟨m, List.mem_of_mem_take hm, rfl⟩
  · intro dates f
    rw [waDateListRows, List.length_map, List.length_take]; omega
  · intro dates f r hr
    obtain ⟨d, hdm, rfl⟩ := List.mem_map.mp hr
    exact ⟨d, List.mem_of_mem_take hdm, rfl⟩
  · intro slots
    rw [waSlotListRows, List.length_map, List.length_take]; omega
  · intro slots r hr
    obtain ⟨sl, hsl, rfl⟩ := List.mem_map.mp hr
    exact ⟨sl, List.mem_of_mem_take hsl, rfl⟩
  · intro dates page f t
    rw [datePageRows, List.length_append, waDateListRows, List.length_map,
      List.length_take, List.length_take]
    split <;> simp
  · intro slots page t
    rw [slotPageRows, List.length_append, waSlotListRows, List.length_map,
      List.length_take, List.length_take]
    split <;> simp
  · intro slots hm t
    rw [waSlotListWithShowMoreRows, List.length_append, List.length_map]
    split <;> simp
  · intro slots hm t r hr
    rcases List.mem_append.mp hr with h | h
    · obtain ⟨sl, hsl, rfl⟩ := List.mem_map.mp h
      exact Or.inr ⟨sl, hsl, rfl⟩
    · left
      rcases hm with _ | _
      · simp at h
      · simp at h
        rw [h]
  · intro appts page purpose t
    rw [waAppointmentListRows, List.length_append, List.length_map, List.length_take]
    split <;> simp
  · intro appts page purpose t r hr
    rcases List.mem_append.mp hr with h | h
    · obtain ⟨a, ha, rfl⟩ := List.mem_map.mp h
      exact Or.inr ⟨a, List.mem_of_mem_drop (List.mem_of_mem_take ha), rfl⟩
    · left
      by_cases hc : page * 10 + 10 < appts.length
      · rw [if_pos hc] at h
        simp at h
        rw [h]
      · rw [if_neg hc] at h
        simp at h
  · intro staffs
    rw [waStaffListRows, List.length_map]
  · intro staffs r hr
    obtain ⟨st, hst, rfl⟩ := List.mem_map.mp hr
    exact ⟨st, hst, rfl⟩
  · intro t1
    refine ⟨?_, ?_, ?_⟩
    · rw [truncTitle]
      split
      · rw [List.length_append, List.length_take, ellipsis]
        simp
      · omega
    · intro h
      rw [truncTitle, if_pos h]
    · intro h
      rw [truncTitle, if_neg (by omega)]

/-- A service with a 30-character name, for the C8 witness. -/
def svcC8 : Service := ⟨['s'], List.replicate 30 'y', none, none, none, [], [], false⟩

theorem claim_C8_caps_amended_witness :
    (⟨['s'], truncTitle (List.replicate 30 'y'), []⟩ : Row) ∈ waServiceListRows [svcC8] ∧
    ∃ s, s ∈ [svcC8] ∧
      (⟨['s'], truncTitle (List.replicate 30 'y'), []⟩ : Row).title = truncTitle s.name :=
  ⟨by decide, claim_C8_caps_amended.2.1 [svcC8]
    ⟨['s'], truncTitle (List.replicate 30 'y'), []⟩ (by decide)⟩

/-! ## Conversation state machine (`app.post("/webhook")`, src/index.js
lines 818-1903).

The webhook handler is one cascade of `if (…) { …; return; }` blocks.
Each block's guard constrains the message shape (`text`, button reply,
list reply), so the cascade is modelled here as a dispatcher keyed on the
message shape, preserving the source order of the blocks within each
shape; the language and `INIT` blocks, which precede everything, are kept
first.  Network calls are oracles in `Env`; `sendWhatsApp` calls become
the returned `Out` list in call order; `clearSession` returns `none` for
the session.  A branch where the source would throw a `TypeError` (caught
by the top-level `catch`, answering 500 with no further send) returns the
session unchanged with `Out.serverError`. -/

/-- `s.toUpperCase()`. -/
def toUpperStr (s : Str) : Str := s.map Char.toUpper

/-- `s.replace(pat, "")`: remove the first occurrence of `pat`. -/
def removeFirst (pat : Str) : Str → Str
  | [] => []
  | c :: rest =>
    if pat.isPrefixOf (c :: rest) then (c :: rest).drop pat.length
    else c :: removeFirst pat rest

/-- `s.includes(pat)`. -/
def containsSub (pat : Str) : Str → Bool
  | [] => pat == []
  | c :: rest => pat.isPrefixOf (c :: rest) || containsSub pat rest

/-- `s.split(sep)` for a multi-character separator, with a structural
fuel equal to the string length (each step consumes at least one
character, so the fuel never runs out). -/
def splitOnSubF (sep : Str) : Nat → Str → List Str
  | _, [] => [[]]
  | 0, s => [s]
  | fuel + 1, c :: rest =>
    if sep ≠ [] ∧ sep.isPrefixOf (c :: rest) then
      [] :: splitOnSubF sep fuel ((c :: rest).drop sep.length)
    else
      match splitOnSubF sep fuel rest with
      | hd :: tl => (c :: hd) :: tl
      | [] => [[c]]

def splitOnSub (sep s : Str) : List Str := splitOnSubF sep s.length s

/-- `[…].join(" ")`. -/
def joinSpace (parts : List Str) : Str := List.intercalate [' '] parts

/-- The wizard steps of the conversation state machine. -/
inductive Step
  | INIT
  | AWAIT_LANGUAGE
  | AWAIT_MAIN
  | AWAIT_BOOKING_MENU
  | AWAIT_SERVICE
  | AWAIT_STAFF
  | AWAIT_MONTH
  | AWAIT_DATE
  | AWAIT_SLOT
  | AWAIT_NAME
  | AWAIT_EMAIL
  | AWAIT_PHONE
  | AWAIT_PAYMENT
  | AWAIT_HELP
  | AWAIT_HELP_NAME
  | AWAIT_HELP_EMAIL
  | AWAIT_HELP_MESSAGE
  | AWAIT_RESCHEDULE_PHONE
  | AWAIT_CANCEL_PHONE
  | AWAIT_APPOINTMENT_LIST_RESCHEDULE
  | AWAIT_APPOINTMENT_LIST_CANCEL
  | AWAIT_RESCHEDULE_SLOT
deriving DecidableEq, Repr

/-- The shape of one inbound webhook message. -/
inductive Msg
  | text (body : Str)
  | buttonReply (bid : Str)
  | listReply (lid : Str)
  | otherKind
deriving DecidableEq, Repr

/-- One outbound `sendWhatsApp` payload, by builder; translated plain
texts are tagged (`textPrompt`/`errorMsg`/`successMsg` carry the
translation key, `plainText` an index over the hardcoded English help
texts). -/
inductive Out
  | languageSelection
  | mainMenu
  | myBookingsMenu
  | serviceList (rows : List Row)
  | staffList (rows : List Row)
  | monthList (rows : List Row)
  | dateList (rows : List Row)
  | slotList (rows : List Row)
  | slotListWithShowMore (rows : List Row)
  | appointmentList (rows : List Row)
  | textPrompt (key : Str)
  | errorMsg (key : Str)
  | successMsg (key : Str)
  | confirmationMsg (ref : Str)
  | searching
  | searchingAppointments
  | paymentRequired (url : Str)
  | paymentPending
  | plainText (tag : Nat)
  | serverError
deriving DecidableEq, Repr

/-- The per-user session (`getSession`, src/index.js lines 68-76, plus
every field the handlers store on it).  Attempt counters default to 0,
matching `(session.xAttempts || 0)`. -/
structure Session where
  sid : Nat
  step : Step
  language : Option Str
  updated : Nat
  lastMsgId : Option Str
  nameAttempts : Nat
  emailAttempts : Nat
  phoneAttempts : Nat
  services : List Service
  staffs : List Staff
  selectedService : Option Service
  selectedStaff : Option Str
  selectedGroup : Option Str
  months : List MonthItem
  selectedMonth : Option MonthItem
  availableDates : List DateItem
  datePage : Nat
  selectedDate : Option DateItem
  slots : List SlotItem
  slotPage : Nat
  selectedSlot : Option SlotItem
  customerName : Option Str
  customerEmail : Option Str
  customerPhone : Option Str
  paymentUrl : Option Str
  stripePaymentId : Option Str
  appointments : List Appt
  appointmentPage : Nat
  rescheduleData : Option (Str × Str × Str)
  searchStartDate : Option Nat
  scan : ScanCursor
  helpName : Option Str
  helpEmail : Option Str
  helpMessage : Option Str
deriving DecidableEq, Repr

/-- A fresh session: `{ id, step: "INIT", data: {}, updated: Date.now() }`. -/
def freshSession (sid now : Nat) : Session where
  sid := sid
  step := Step.INIT
  language := none
  updated := now
  lastMsgId := none
  nameAttempts := 0
  emailAttempts := 0
  phoneAttempts := 0
  services := []
  staffs := []
  selectedService := none
  selectedStaff := none
  selectedGroup := none
  months := []
  selectedMonth := none
  availableDates := []
  datePage := 0
  selectedDate := none
  slots := []
  slotPage := 0
  selectedSlot := none
  customerName := none
  customerEmail := none
  customerPhone := none
  paymentUrl := none
  stripePaymentId := none
  appointments := []
  appointmentPage := 0
  rescheduleData := none
  searchStartDate := none
  scan := ⟨none, 0, none⟩
  helpName := none
  helpEmail := none
  helpMessage := none

/-- The oracle environment: the wall clock, the id generator and the
responses of Zoho / Stripe / the translation table for the one inbound
event being processed. -/
structure Env where
  now : Nat
  freshSid : Nat
  servicesOk : Bool
  services : List Service
  staffs : List Staff
  monthsNow : List MonthItem
  datesForMonth : MonthItem → List DateItem
  slotsForDate : DateItem → List Str
  slotsForDay : Nat → List Str
  todayNum : Nat
  apptsByPhone : Str → List Appt
  cancelOk : Bool
  rescheduleOk : Bool
  bookingOk : Bool
  bookingRef : Str
  paymentLink : Option Str
  paymentVerified : Bool
  stripePid : Str
  ticketId : Option Str
  showMoreTitle : Str
  slotsAvailDescr : Nat → Str
  renderDay : Nat → Str

def SESSION_TTL : Nat := 15 * 60 * 1000

/-- `getSession` (src/index.js lines 68-76): create a fresh session when
absent or expired, then refresh `updated` in every case. -/
def getSession (env : Env) (store : Str → Option Session) (user : Str) : Session :=
  match store user with
  | some s =>
    if SESSION_TTL < env.now - s.updated then freshSession env.freshSid env.now
    else { s with updated := env.now }
  | none => freshSession env.freshSid env.now

/-- `timeSlot.replace(/[:\s]/g, "-")`. -/
def sanitizeTime (t : Str) : Str :=
  t.map (fun c => if c = ':' ∨ c.isWhitespace then '-' else c)

def slotTag : Str := 's' :: 'l' :: 'o' :: 't' :: '_' :: []

/-- The id `slot_${rawDate}_${time}_${idx}` of an `AWAIT_SLOT` slot. -/
def slotItemOf (renderDay : Nat → Str) (d : DateItem) (idx : Nat) (timeStr : Str) : SlotItem :=
  ⟨slotTag ++ renderDay d.rawDate ++ '_' :: sanitizeTime timeStr ++ '_' :: natToStr idx,
    timeStr, timeStr⟩

/-- The composite id `slot_${counter}_${dateStr}_${time}` of a scanned slot. -/
def scanSlotId (renderDay : Nat → Str) (sl : Slot) : Str :=
  slotTag ++ natToStr sl.counter ++ '_' :: renderDay sl.day ++ '_' :: sanitizeTime sl.time

/-- The label `${dateStr} ${timeSlot}` of a scanned slot. -/
def scanSlotLabel (renderDay : Nat → Str) (sl : Slot) : Str :=
  renderDay sl.day ++ ' ' :: sl.time

/-- `createZohoAppointment` (src/index.js lines 1940-2162) as seen by the
dispatcher: the payload assembly is `createApptTimes`; what matters here
is that an unparseable slot time, a successful booking and a failed
booking all clear the session, reading the selection fields first (absent
selection fields would throw in the source). -/
def createZohoAppointment (env : Env) (s : Session) : Option Session × List Out :=
  match s.selectedService, s.selectedDate, s.selectedSlot with
  | some _, some _, some slot =>
    match findTimeMatch slot.time with
    | none => (none, [Out.errorMsg "bookingFailed".toList])
    | some _ =>
      if env.bookingOk then (none, [Out.confirmationMsg env.bookingRef])
      else (none, [Out.errorMsg "bookingFailed".toList])
  | _, _, _ => (some s, [Out.serverError])

/-- The fall-through at the end of the cascade (src/index.js lines
1893-1898): reset to the main menu. -/
def fallbackMain (s : Session) : Option Session × List Out :=
  (some { s with step := Step.AWAIT_MAIN }, [Out.mainMenu])

/-- The button-reply blocks of the cascade, in source order: main menu
(§3), bookings submenu (§3A), help home (§4), global try-again (§5),
payment confirmation (§14). -/
def dispatchButton (env : Env) (s : Session) (b : Str) : Option Session × List Out :=
  if s.step = Step.AWAIT_MAIN ∧ b = "my_bookings_btn".toList then
    (some { s with step := Step.AWAIT_BOOKING_MENU }, [Out.myBookingsMenu])
  else if s.step = Step.AWAIT_MAIN ∧ b = "help_btn".toList then
    (some { s with step := Step.AWAIT_HELP_NAME }, [Out.plainText 0])
  else if s.step = Step.AWAIT_BOOKING_MENU ∧ b = "book_new_btn".toList then
    if env.servicesOk ∧ env.services ≠ [] then
      (some { s with services := env.services, step := Step.AWAIT_SERVICE },
        [Out.serviceList (waServiceListRows env.services)])
    else (some s, [Out.errorMsg "noServices".toList])
  else if s.step = Step.AWAIT_BOOKING_MENU ∧ b = "reschedule_btn".toList then
    (some { s with step := Step.AWAIT_RESCHEDULE_PHONE }, [Out.textPrompt "enterPhone".toList])
  else if s.step = Step.AWAIT_BOOKING_MENU ∧ b = "cancel_btn".toList then
    (some { s with step := Step.AWAIT_CANCEL_PHONE }, [Out.textPrompt "enterPhone".toList])
  else if s.step = Step.AWAIT_HELP ∧ b = "home_btn".toList then
    (some { s with step := Step.AWAIT_MAIN }, [Out.mainMenu])
  else if b = "try_again".toList then
    (some { s with step := Step.AWAIT_MAIN }, [Out.mainMenu])
  else if s.step = Step.AWAIT_PAYMENT ∧ b = "payment_done".toList then
    if env.paymentVerified then
      createZohoAppointment env { s with stripePaymentId := some env.stripePid }
    else (some s, [Out.paymentPending])
  else fallbackMain s

/-- The text blocks of the cascade, in source order: name (§11), email
(§12), phone & booking (§13), payment text (§14), help flow (§16-§18),
reschedule phone, cancel phone. -/
def dispatchText (env : Env) (s : Session) (t : Str) : Option Session × List Out :=
  if s.step = Step.AWAIT_NAME then
    let name := trimStr t
    if name = [] ∨ 100 < name.length then
      let na := s.nameAttempts + 1
      if 3 ≤ na then (none, [Out.errorMsg "bookingCancelled".toList])
      else (some { s with nameAttempts := na }, [Out.textPrompt "invalidName".toList])
    else
      (some { s with customerName := some name, step := Step.AWAIT_EMAIL, emailAttempts := 0 },
        [Out.textPrompt "enterEmail".toList])
  else if s.step = Step.AWAIT_EMAIL then
    let email := trimStr t
    if validateEmail email = false then
      let ea := s.emailAttempts + 1
      if 3 ≤ ea then (none, [Out.errorMsg "bookingCancelled".toList])
      else (some { s with emailAttempts := ea }, [Out.textPrompt "invalidEmail".toList])
    else
      (some { s with customerEmail := some email, step := Step.AWAIT_PHONE, phoneAttempts := 0 },
        [Out.textPrompt "enterPhone".toList])
  else if s.step = Step.AWAIT_PHONE then
    let phone := trimStr t
    if validatePhone phone = false then
      let pa := s.phoneAttempts + 1
      if 3 ≤ pa then (none, [Out.errorMsg "bookingCancelled".toList])
      else (some { s with phoneAttempts := pa }, [Out.textPrompt "invalidPhone".toList])
    else
      let s1 := { s with customerPhone := some phone }
      match s1.selectedService with
      | none => (some s1, [Out.serverError])
      | some svc =>
        if 0 < svc.price.getD 0 then
          match env.paymentLink with
          | none => (none, [Out.errorMsg "paymentLinkFailed".toList])
          | some url =>
            (some { s1 with paymentUrl := some url, step := Step.AWAIT_PAYMENT },
              [Out.paymentRequired url])
        else createZohoAppointment env s1
  else if s.step = Step.AWAIT_PAYMENT then
    let userText := toLowerStr (trimStr t)
    if containsSub "paid".toList userText || containsSub "completed".toList userText ||
        containsSub "done".toList userText then
      if env.paymentVerified then
        createZohoAppointment env { s with stripePaymentId := some env.stripePid }
      else (some s, [Out.paymentPending])
    else (some s, [Out.paymentPending])
  else if s.step = Step.AWAIT_HELP_NAME then
    (some { s with helpName := some (trimStr t), step := Step.AWAIT_HELP_EMAIL },
      [Out.plainText 1])
  else if s.step = Step.AWAIT_HELP_EMAIL then
    let email := trimStr t
    if validateEmail email = false then
      let ea := s.emailAttempts + 1
      if 3 ≤ ea then (none, [Out.errorMsg "bookingCancelled".toList])
      else (some { s with emailAttempts := ea }, [Out.plainText 2])
    else
      (some { s with helpEmail := some email, step := Step.AWAIT_HELP_MESSAGE },
        [Out.plainText 3])
  else if s.step = Step.AWAIT_HELP_MESSAGE then
    match env.ticketId with
    | some _ => (none, [Out.plainText 4])
    | none => (none, [Out.plainText 5])
  else if s.step = Step.AWAIT_RESCHEDULE_PHONE then
    let phone := trimStr t
    if validatePhone phone = false then
      let pa := s.phoneAttempts + 1
      if 3 ≤ pa then (none, [Out.errorMsg "bookingCancelled".toList])
      else (some { s with phoneAttempts := pa }, [Out.textPrompt "invalidPhone".toList])
    else
      let appts := env.apptsByPhone phone
      if appts = [] then
        (some { s with step := Step.AWAIT_MAIN },
          [Out.searchingAppointments, Out.errorMsg "noAppointmentsFound".toList])
      else
        (some { s with
            appointments := appts
            appointmentPage := 0
            step := Step.AWAIT_APPOINTMENT_LIST_RESCHEDULE },
          [Out.searchingAppointments,
            Out.appointmentList (waAppointmentListRows appts 0 "reschedule".toList
              env.showMoreTitle)])
  else if s.step = Step.AWAIT_CANCEL_PHONE then
    let phone := trimStr t
    if validatePhone phone = false then
      let pa := s.phoneAttempts + 1
      if 3 ≤ pa then (none, [Out.errorMsg "bookingCancelled".toList])
      else (some { s with phoneAttempts := pa }, [Out.textPrompt "invalidPhone".toList])
    else
      let appts := env.apptsByPhone phone
      if appts = [] then
        (some { s with step := Step.AWAIT_MAIN },
          [Out.searchingAppointments, Out.errorMsg "noAppointmentsFound".toList])
      else
        (some { s with
            appointments := appts
            appointmentPage := 0
            step := Step.AWAIT_APPOINTMENT_LIST_CANCEL },
          [Out.searchingAppointments,
            Out.appointmentList (waAppointmentListRows appts 0 "cancel".toList
              env.showMoreTitle)])
  else fallbackMain s

def showMoreApptsTag : Str :=
  's' :: 'h' :: 'o' :: 'w' :: '_' :: 'm' :: 'o' :: 'r' :: 'e' :: '_' ::
    'a' :: 'p' :: 'p' :: 't' :: 's' :: '_' :: []

/-- `parseInt` of a split part, with `NaN` behaving as 0 where the source
only ever uses the value in `slice` (whose `NaN` start is 0). -/
def parseNatD (p : Str) : Nat :=
  if p ≠ [] ∧ p.all (fun c => c.isDigit) then strToNat p else 0

/-- The appointment-selection block (§ APPOINTMENT SELECTION) shared by
the reschedule and cancel lists. -/
def dispatchApptSelection (env : Env) (s : Session) (l : Str) : Option Session × List Out :=
  if showMoreApptsTag.isPrefixOf l then
    let parts := splitOnChar '_' l
    let purpose := parts.getD 3 []
    let page := parseNatD (parts.getD 4 [])
    (some { s with appointmentPage := page },
      [Out.appointmentList (waAppointmentListRows s.appointments page purpose
        env.showMoreTitle)])
  else
    let parts := splitOnSub apptTag l
    if parts.length ≠ 2 then (some s, [Out.errorMsg "invalidSlot".toList])
    else
      let purpose := parts.getD 0 []
      let ids := splitOnChar '_' (parts.getD 1 [])
      if ids.length < 3 then (some s, [Out.errorMsg "invalidSlot".toList])
      else
        let bookingId := ids.getD 0 []
        let serviceId := ids.getD 1 []
        let staffId := ids.getD 2 []
        if purpose = "cancel".toList then
          if env.cancelOk then
            (some { s with step := Step.AWAIT_MAIN }, [Out.successMsg "cancelSuccess".toList])
          else (some s, [Out.errorMsg "cancelFailed".toList])
        else if purpose = "reschedule".toList then
          match env.services.find? (fun sv => sv.sid == serviceId) with
          | none => (some s, [Out.errorMsg "invalidService".toList])
          | some service =>
            let serviceType := toUpperStr (service.serviceType.getD [])
            let s1 := { s with
              rescheduleData := some (bookingId, serviceId, staffId)
              selectedService := some service }
            let s2 :=
              if serviceType = "COLLECTIVE".toList ∨ serviceType = "GROUP".toList then
                { s1 with
                  selectedGroup := some (service.assignedGroups.headD staffId)
                  selectedStaff := none }
              else
                { s1 with selectedStaff := some staffId, selectedGroup := none }
            let s3 := { s2 with step := Step.AWAIT_RESCHEDULE_SLOT }
            let r := findNextAvailableSlots env.slotsForDay s3.scan env.todayNum 3 60
            let s4 := { s3 with scan := r.cursor }
            if r.slots = [] then
              (some { s4 with step := Step.AWAIT_MAIN },
                [Out.searching, Out.errorMsg "noSlotsAvailable".toList])
            else
              (some { s4 with searchStartDate := some r.nextDay },
                [Out.searching,
                  Out.slotListWithShowMore (waSlotListWithShowMoreRows
                    (r.slots.map (fun sl =>
                      (scanSlotId env.renderDay sl, scanSlotLabel env.renderDay sl)))
                    true env.showMoreTitle)])
        else fallbackMain s

/-- The `AWAIT_RESCHEDULE_SLOT` block (src/index.js lines 1801-1891). -/
def dispatchRescheduleSlot (env : Env) (s : Session) (l : Str) : Option Session × List Out :=
  if l = showMoreSlotsId then
    let startDay := s.searchStartDate.getD 0
    let r := findNextAvailableSlots env.slotsForDay s.scan startDay 3 60
    let s1 := { s with scan := r.cursor }
    if r.slots = [] then
      (some { s1 with step := Step.AWAIT_MAIN },
        [Out.searching, Out.errorMsg "noMoreSlots".toList])
    else
      (some { s1 with searchStartDate := some r.nextDay },
        [Out.searching,
          Out.slotListWithShowMore (waSlotListWithShowMoreRows
            (r.slots.map (fun sl =>
              (scanSlotId env.renderDay sl, scanSlotLabel env.renderDay sl)))
            true env.showMoreTitle)])
  else
    let parts := splitOnChar '_' l
    if parts.length < 4 then (some s, [Out.errorMsg "invalidSlot".toList])
    else
      let timeStr := (joinSpace (parts.drop 3)).map (fun c => if c = '-' then ':' else c)
      match findTimeMatch timeStr with
      | none => (some s, [Out.serverError])
      | some _ =>
        match s.rescheduleData with
        | none => (some s, [Out.serverError])
        | some _ =>
          if env.rescheduleOk then (none, [Out.successMsg "rescheduleSuccess".toList])
          else (none, [Out.errorMsg "rescheduleFailed".toList])

/-- The list-reply blocks of the cascade, in source order: service (§6),
staff (§7), month (§8), date (§9), slot (§10), appointment selection,
reschedule slot selection. -/
def dispatchList (env : Env) (s : Session) (l : Str) : Option Session × List Out :=
  if s.step = Step.AWAIT_SERVICE then
    match s.services.find? (fun sv => sv.sid == l) with
    | none => (some { s with step := Step.AWAIT_MAIN }, [Out.errorMsg "invalidService".toList])
    | some service =>
      let s1 := { s with selectedService := some service }
      let stype := toUpperStr (service.serviceType.getD [])
      if stype = "COLLECTIVE".toList ∨ stype = "GROUP".toList then
        let s2 :=
          if service.assignedGroups ≠ [] then
            { s1 with selectedGroup := some (service.assignedGroups.headD []) }
          else s1
        (some { s2 with months := env.monthsNow, step := Step.AWAIT_MONTH },
          [Out.monthList (waMonthListRows env.monthsNow)])
      else if (stype = "APPOINTMENT".toList ∨ stype = "ONE-ON-ONE".toList ∨
          stype = "ONE TO ONE".toList) ∧ service.assignedStaffs ≠ [] ∧
          service.letCustomerSelectStaff then
        let assigned := env.staffs.filter (fun st => service.assignedStaffs.contains st.stid)
        (some { s1 with staffs := assigned, step := Step.AWAIT_STAFF },
          [Out.staffList (waStaffListRows assigned)])
      else
        let s2 :=
          if service.assignedStaffs ≠ [] then
            { s1 with selectedStaff := some (service.assignedStaffs.headD []) }
          else s1
        (some { s2 with months := env.monthsNow, step := Step.AWAIT_MONTH },
          [Out.monthList (waMonthListRows env.monthsNow)])
  else if s.step = Step.AWAIT_STAFF then
    (some { s with
        selectedStaff := some (removeFirst staffIdTag l)
        months := env.monthsNow
        step := Step.AWAIT_MONTH },
      [Out.monthList (waMonthListRows env.monthsNow)])
  else if s.step = Step.AWAIT_MONTH then
    match s.months.find? (fun m => m.mid == l) with
    | none => (some { s with step := Step.AWAIT_STAFF }, [Out.errorMsg "invalidService".toList])
    | some monthObj =>
      let dates := env.datesForMonth monthObj
      if dates = [] then
        (some { s with selectedMonth := some monthObj, step := Step.AWAIT_MONTH },
          [Out.searching, Out.errorMsg "noSlotsAvailable".toList])
      else
        (some { s with
            selectedMonth := some monthObj
            availableDates := dates
            datePage := 0
            step := Step.AWAIT_DATE },
          [Out.searching,
            Out.dateList (datePageRows dates 0 env.slotsAvailDescr env.showMoreTitle)])
  else if s.step = Step.AWAIT_DATE then
    if l = showMoreDatesId then
      let page := s.datePage + 1
      (some { s with datePage := page },
        [Out.dateList (datePageRows s.availableDates page env.slotsAvailDescr
          env.showMoreTitle)])
    else
      match s.availableDates.find? (fun d => d.did == l) with
      | none => (some { s with step := Step.AWAIT_MONTH }, [Out.errorMsg "invalidSlot".toList])
      | some dateObj =>
        let rawSlots := env.slotsForDate dateObj
        if rawSlots = [] then
          (some { s with selectedDate := some dateObj, step := Step.AWAIT_DATE },
            [Out.searching, Out.errorMsg "noSlotsAvailable".toList])
        else
          let slotItems := rawSlots.mapIdx (fun idx timeStr =>
            slotItemOf env.renderDay dateObj idx timeStr)
          (some { s with
              selectedDate := some dateObj
              slots := slotItems
              slotPage := 0
              step := Step.AWAIT_SLOT },
            [Out.searching, Out.slotList (slotPageRows slotItems 0 env.showMoreTitle)])
  else if s.step = Step.AWAIT_SLOT then
    if l = showMoreSlotsId then
      let page := s.slotPage + 1
      (some { s with slotPage := page },
        [Out.slotList (slotPageRows s.slots page env.showMoreTitle)])
    else
      match s.slots.find? (fun si => si.slid == l) with
      | none => (some { s with step := Step.AWAIT_DATE }, [Out.errorMsg "invalidSlot".toList])
      | some slotObj =>
        (some { s with
            selectedSlot := some slotObj
            step := Step.AWAIT_NAME
            nameAttempts := 0 },
          [Out.textPrompt "enterName".toList])
  else if s.step = Step.AWAIT_APPOINTMENT_LIST_RESCHEDULE ∨
      s.step = Step.AWAIT_APPOINTMENT_LIST_CANCEL then
    dispatchApptSelection env s l
  else if s.step = Step.AWAIT_RESCHEDULE_SLOT then
    dispatchRescheduleSlot env s l
  else fallbackMain s

def langTag : Str := 'l' :: 'a' :: 'n' :: 'g' :: '_' :: []

/-- The webhook cascade after the idempotency check (src/index.js lines
835-1898). -/
def dispatch (env : Env) (s : Session) (msg : Msg) : Option Session × List Out :=
  if s.language = none then
    match msg with
    | Msg.listReply lid =>
      if s.step = Step.AWAIT_LANGUAGE then
        (some { s with language := some (removeFirst langTag lid), step := Step.AWAIT_MAIN },
          [Out.mainMenu])
      else (some { s with step := Step.AWAIT_LANGUAGE }, [Out.languageSelection])
    | _ => (some { s with step := Step.AWAIT_LANGUAGE }, [Out.languageSelection])
  else if s.step = Step.INIT then
    (some { s with step := Step.AWAIT_MAIN }, [Out.mainMenu])
  else
    match msg with
    | Msg.buttonReply b => dispatchButton env s b
    | Msg.listReply l => dispatchList env s l
    | Msg.text t => dispatchText env s t
    | Msg.otherKind => fallbackMain s

/-- One `POST /webhook` delivery (src/index.js lines 818-1903): load or
create the session, drop exact duplicates of the last message id, then
dispatch.  The store is updated with the final session (removed when the
handler called `clearSession`). -/
def process (env : Env) (store : Str → Option Session) (user : Str) (msgId : Str)
    (msg : Msg) : (Str → Option Session) × List Out :=
  let session := getSession env store user
  if session.lastMsgId = some msgId then
    (fun v => if v = user then some session else store v, [])
  else
    let r := dispatch env { session with lastMsgId := some msgId } msg
    (fun v => if v = user then r.1 else store v, r.2)

theorem getSession_live (env : Env) (store : Str → Option Session) (u : Str) (s : Session)
    (hs : store u = some s) (hfresh : env.now - s.updated ≤ SESSION_TTL) :
    getSession env store u = { s with updated := env.now } := by
  simp only [getSession, hs]
  rw [if_neg (Nat.not_lt.mpr hfresh)]

theorem process_nondup (env : Env) (store : Str → Option Session) (u : Str) (s : Session)
    (msgId : Str) (msg : Msg) (hs : store u = some s)
    (hfresh : env.now - s.updated ≤ SESSION_TTL) (hdup : ¬ s.lastMsgId = some msgId) :
    process env store u msgId msg =
      (fun v => if v = u then
          (dispatch env { s with updated := env.now, lastMsgId := some msgId } msg).1
        else store v,
       (dispatch env { s with updated := env.now, lastMsgId := some msgId } msg).2) := by
  unfold process
  rw [getSession_live env store u s hs hfresh]
  rw [if_neg hdup]

/-- **C1, amended.** For a live (non-expired) session whose
`lastMsgId` equals the inbound event id, processing produces no outbound
message and changes nothing in the store except refreshing the session's
activity timestamp to the current time. -/
theorem claim_C1_idempotency_amended (env : Env) (store : Str → Option Session)
    (u : Str) (s : Session) (msgId : Str) (msg : Msg)
    (hs : store u = some s) (hfresh : env.now - s.updated ≤ SESSION_TTL)
    (hdup : s.lastMsgId = some msgId) :
    (process env store u msgId msg).2 = [] ∧
    ∀ v, (process env store u msgId msg).1 v =
      if v = u then some { s with updated := env.now } else store v := by
  unfold process
  rw [getSession_live env store u s hs hfresh]
  rw [if_pos hdup]
  exact ⟨rfl, fun v => rfl⟩

/-- An environment whose oracles are all trivial, for concrete runs. -/
def envC1 : Env where
  now := 5
  freshSid := 42
  servicesOk := true
  services := []
  staffs := []
  monthsNow := []
  datesForMonth := fun _ => []
  slotsForDate := fun _ => []
  slotsForDay := fun _ => []
  todayNum := 0
  apptsByPhone := fun _ => []
  cancelOk := true
  rescheduleOk := true
  bookingOk := true
  bookingRef := ['r']
  paymentLink := none
  paymentVerified := true
  stripePid := ['p']
  ticketId := none
  showMoreTitle := ['S']
  slotsAvailDescr := fun _ => []
  renderDay := fun _ => ['d']

def sC1 : Session := { freshSession 1 0 with
  language := some ['e', 'n']
  step := Step.AWAIT_MAIN
  lastMsgId := some ['m', '0'] }

def storeC1 : Str → Option Session := fun v => if v = ['u'] then some sC1 else none

/-- **C1, counterexample.** A duplicate delivery produces no outbound
message, but it does NOT leave the session state unmodified: `getSession`
refreshes the `updated` timestamp (0 → 5) before the idempotency check
returns. -/
theorem claim_C1_counterexample :
    (process envC1 storeC1 ['u'] ['m', '0'] (Msg.text ['x'])).2 = [] ∧
    ¬ (process envC1 storeC1 ['u'] ['m', '0'] (Msg.text ['x'])).1 ['u'] = some sC1 ∧
    ((process envC1 storeC1 ['u'] ['m', '0'] (Msg.text ['x'])).1 ['u']).map Session.updated =
      some 5 ∧
    sC1.updated = 0 := by decide

theorem claim_C1_idempotency_amended_witness :
    (storeC1 ['u'] = some sC1 ∧ envC1.now - sC1.updated ≤ SESSION_TTL ∧
      sC1.lastMsgId = some ['m', '0']) ∧
    ((process envC1 storeC1 ['u'] ['m', '0'] (Msg.text ['x'])).2 = [] ∧
      (process envC1 storeC1 ['u'] ['m', '0'] (Msg.text ['x'])).1 ['u'] =
        some { sC1 with updated := envC1.now }) := by
  refine ⟨⟨by decide, by decide, by decide⟩, ?_⟩
  have h := claim_C1_idempotency_amended envC1 storeC1 ['u'] sC1 ['m', '0'] (Msg.text ['x'])
    (by decide) (by decide) (by decide)
  exact ⟨h.1, by rw [h.2 ['u']]; decide⟩

/-- The formalization of "the event's shape matches a handler registered
for the session's current step": one of the guards of the webhook cascade
that `return` before the final fallback holds.  A session with no
language yet is always handled by the language block (it catches every
shape), and `INIT` by the main-menu block. -/
def handled (s : Session) (msg : Msg) : Bool :=
  if s.language = none then true
  else if s.step = Step.INIT then true
  else
    match msg with
    | Msg.buttonReply b =>
      decide (s.step = Step.AWAIT_MAIN ∧
          (b = "my_bookings_btn".toList ∨ b = "help_btn".toList)) ||
      decide (s.step = Step.AWAIT_BOOKING_MENU ∧
          (b = "book_new_btn".toList ∨ b = "reschedule_btn".toList ∨
            b = "cancel_btn".toList)) ||
      decide (s.step = Step.AWAIT_HELP ∧ b = "home_btn".toList) ||
      decide (b = "try_again".toList) ||
      decide (s.step = Step.AWAIT_PAYMENT ∧ b = "payment_done".toList)
    | Msg.listReply _ =>
      decide (s.step = Step.AWAIT_SERVICE ∨ s.step = Step.AWAIT_STAFF ∨
        s.step = Step.AWAIT_MONTH ∨ s.step = Step.AWAIT_DATE ∨
        s.step = Step.AWAIT_SLOT ∨ s.step = Step.AWAIT_APPOINTMENT_LIST_RESCHEDULE ∨
        s.step = Step.AWAIT_APPOINTMENT_LIST_CANCEL ∨ s.step = Step.AWAIT_RESCHEDULE_SLOT)
    | Msg.text _ =>
      decide (s.step = Step.AWAIT_NAME ∨ s.step = Step.AWAIT_EMAIL ∨
        s.step = Step.AWAIT_PHONE ∨ s.step = Step.AWAIT_PAYMENT ∨
        s.step = Step.AWAIT_HELP_NAME ∨ s.step = Step.AWAIT_HELP_EMAIL ∨
        s.step = Step.AWAIT_HELP_MESSAGE ∨ s.step = Step.AWAIT_RESCHEDULE_PHONE ∨
        s.step = Step.AWAIT_CANCEL_PHONE)
    | Msg.otherKind => false

/-- **C9.** An inbound event whose shape matches no handler registered
for the current step falls through to the final fallback: the step is
reset to `AWAIT_MAIN` and the main menu is re-sent, for every
environment, session and message. -/
theorem claim_C9_unmatched_resets (env : Env) (s : Session) (msg : Msg)
    (h : handled s msg = false) :
    dispatch env s msg = (some { s with step := Step.AWAIT_MAIN }, [Out.mainMenu]) := by
  unfold handled at h
  by_cases hl : s.language = none
  · rw [if_pos hl] at h
    exact absurd h (by simp)
  · rw [if_neg hl] at h
    by_cases hi : s.step = Step.INIT
    · rw [if_pos hi] at h
      exact absurd h (by simp)
    · rw [if_neg hi] at h
      unfold dispatch
      rw [if_neg hl, if_neg hi]
      cases msg with
      | otherKind => rfl
      | text t =>
        simp only [decide_eq_false_iff_not] at h
        push_neg at h
        obtain ⟨h1, h2, h3, h4, h5, h6, h7, h8, h9⟩ := h
        show dispatchText env s t = _
        unfold dispatchText
        rw [if_neg h1, if_neg h2, if_neg h3, if_neg h4, if_neg h5, if_neg h6, if_neg h7,
          if_neg h8, if_neg h9]
        rfl
      | listReply l =>
        simp only [decide_eq_false_iff_not] at h
        push_neg at h
        obtain ⟨h1, h2, h3, h4, h5, h6, h7, h8⟩ := h
        show dispatchList env s l = _
        unfold dispatchList
        rw [if_neg h1, if_neg h2, if_neg h3, if_neg h4, if_neg h5,
          if_neg (fun hh => hh.elim h6 h7), if_neg h8]
        rfl
      | buttonReply b =>
        simp only [Bool.or_eq_false_iff, decide_eq_false_iff_not] at h
        obtain ⟨⟨⟨⟨hc1, hc2⟩, hc3⟩, hc4⟩, hc5⟩ := h
        show dispatchButton env s b = _
        unfold dispatchButton
        rw [if_neg (fun hh => hc1 ⟨hh.1, Or.inl hh.2⟩),
          if_neg (fun hh => hc1 ⟨hh.1, Or.inr hh.2⟩),
          if_neg (fun hh => hc2 ⟨hh.1, Or.inl hh.2⟩),
          if_neg (fun hh => hc2 ⟨hh.1, Or.inr (Or.inl hh.2)⟩),
          if_neg (fun hh => hc2 ⟨hh.1, Or.inr (Or.inr hh.2)⟩),
          if_neg hc3, if_neg hc4, if_neg hc5]
        rfl

def sC9 : Session := { freshSession 7 0 with
  language := some ['e', 'n']
  step := Step.AWAIT_MAIN }

theorem claim_C9_unmatched_resets_witness :
    handled sC9 (Msg.text "hello".toList) = false ∧
    dispatch envC1 sC9 (Msg.text "hello".toList) =
      (some { sC9 with step := Step.AWAIT_MAIN }, [Out.mainMenu]) :=
  ⟨by decide, claim_C9_unmatched_resets envC1 sC9 (Msg.text "hello".toList) (by decide)⟩

def storeC6 : Str → Option Session :=
  fun v => if v = ['u'] then some { freshSession 3 0 with step := Step.AWAIT_LANGUAGE } else none

def storeC6b : Str → Option Session :=
  (process envC1 storeC6 ['u'] ['m', '1'] (Msg.text ['x'])).1

def storeC6c : Str → Option Session :=
  (process envC1 storeC6b ['u'] ['m', '2'] (Msg.text ['x'])).1

/-- **C6, counterexample.** The language stage has no attempt counter:
three consecutive invalid (free-text) submissions at `AWAIT_LANGUAGE`
each just re-send the language prompt, and after the third the session
is still in the store at `AWAIT_LANGUAGE` — the claimed abort-and-remove
does not happen at this validation stage. -/
theorem claim_C6_counterexample :
    (process envC1 storeC6 ['u'] ['m', '1'] (Msg.text ['x'])).2 = [Out.languageSelection] ∧
    (process envC1 storeC6b ['u'] ['m', '2'] (Msg.text ['x'])).2 = [Out.languageSelection] ∧
    (process envC1 storeC6c ['u'] ['m', '3'] (Msg.text ['x'])).2 = [Out.languageSelection] ∧
    ((process envC1 storeC6c ['u'] ['m', '3'] (Msg.text ['x'])).1 ['u']).map Session.step =
      some Step.AWAIT_LANGUAGE := by decide

/-- **C6, amended.** The name, email and phone validation stages
(including the phone prompts of the reschedule and cancel flows) carry
per-field attempt counters, and a third consecutive invalid submission
sends `bookingCancelled` and removes the session from the store; after
the removal the next inbound message gets a fresh session whose only
prompt is the language selection, so no stale selection data is
referenced.  The language stage, by contrast, has no counter (see the
counterexample). -/
theorem claim_C6_validation_bound_amended :
    (∀ env store u s msgId body, store u = some s →
      env.now - s.updated ≤ SESSION_TTL → ¬ s.lastMsgId = some msgId →
      s.language ≠ none →
      ((s.step = Step.AWAIT_NAME → s.nameAttempts = 2 →
          (trimStr body = [] ∨ 100 < (trimStr body).length) →
          (process env store u msgId (Msg.text body)).1 u = none ∧
          (process env store u msgId (Msg.text body)).2 =
            [Out.errorMsg "bookingCancelled".toList]) ∧
        (s.step = Step.AWAIT_EMAIL → s.emailAttempts = 2 →
          validateEmail (trimStr body) = false →
          (process env store u msgId (Msg.text body)).1 u = none ∧
          (process env store u msgId (Msg.text body)).2 =
            [Out.errorMsg "bookingCancelled".toList]) ∧
        (s.step = Step.AWAIT_PHONE → s.phoneAttempts = 2 →
          validatePhone (trimStr body) = false →
          (process env store u msgId (Msg.text body)).1 u = none ∧
          (process env store u msgId (Msg.text body)).2 =
            [Out.errorMsg "bookingCancelled".toList]) ∧
        (s.step = Step.AWAIT_RESCHEDULE_PHONE → s.phoneAttempts = 2 →
          validatePhone (trimStr body) = false →
          (process env store u msgId (Msg.text body)).1 u = none ∧
          (process env store u msgId (Msg.text body)).2 =
            [Out.errorMsg "bookingCancelled".toList]) ∧
        (s.step = Step.AWAIT_CANCEL_PHONE → s.phoneAttempts = 2 →
          validatePhone (trimStr body) = false →
          (process env store u msgId (Msg.text body)).1 u = none ∧
          (process env store u msgId (Msg.text body)).2 =
            [Out.errorMsg "bookingCancelled".toList]))) ∧
    (∀ env store u msgId msg, store u = none →
      (process env store u msgId msg).2 = [Out.languageSelection] ∧
      ((process env store u msgId msg).1 u).map Session.step = some Step.AWAIT_LANGUAGE) := by
  constructor
  · intro env store u s msgId body hs hfresh hdup hlang
    rw [process_nondup env store u s msgId (Msg.text body) hs hfresh hdup]
    refine ⟨?_, ?_, ?_, ?_, ?_⟩
    · intro hstep hatt hinv
      have hd : dispatch env { s with updated := env.now, lastMsgId := some msgId }
          (Msg.text body) = (none, [Out.errorMsg "bookingCancelled".toList]) := by
        unfold dispatch
        rw [if_neg hlang]
        rw [if_neg (show ¬ s.step = Step.INIT by rw [hstep]; intro h; cases h)]
        show dispatchText env _ body = _
        unfold dispatchText
        rw [if_pos hstep]
        rw [if_pos hinv]
        have hle : 3 ≤ ({ s with updated := env.now, lastMsgId := some msgId } :
            Session).nameAttempts + 1 := by
          show 3 ≤ s.nameAttempts + 1
          omega
        rw [if_pos hle]
      rw [hd]
      exact ⟨by simp, rfl⟩
    · intro hstep hatt hinv
      have hd : dispatch env { s with updated := env.now, lastMsgId := some msgId }
          (Msg.text body) = (none, [Out.errorMsg "bookingCancelled".toList]) := by
        unfold dispatch
        rw [if_neg hlang]
        rw [if_neg (show ¬ s.step = Step.INIT by rw [hstep]; intro h; cases h)]
        show dispatchText env _ body = _
        unfold dispatchText
        rw [if_neg (show ¬ s.step = Step.AWAIT_NAME by rw [hstep]; intro h; cases h)]
        rw [if_pos hstep]
        rw [if_pos hinv]
        have hle : 3 ≤ ({ s with updated := env.now, lastMsgId := some msgId } :
            Session).emailAttempts + 1 := by
          show 3 ≤ s.emailAttempts + 1
          omega
        rw [if_pos hle]
      rw [hd]
      exact ⟨by simp, rfl⟩
    · intro hstep hatt hinv
      have hd : dispatch env { s with updated := env.now, lastMsgId := some msgId }
          (Msg.text body) = (none, [Out.errorMsg "bookingCancelled".toList]) := by
        unfold dispatch
        rw [if_neg hlang]
        rw [if_neg (show ¬ s.step = Step.INIT by rw [hstep]; intro h; cases h)]
        show dispatchText env _ body = _
        unfold dispatchText
        rw [if_neg (show ¬ s.step = Step.AWAIT_NAME by rw [hstep]; intro h; cases h)]
        rw [if_neg (show ¬ s.step = Step.AWAIT_EMAIL by rw [hstep]; intro h; cases h)]
        rw [if_pos hstep]
        rw [if_pos hinv]
        have hle : 3 ≤ ({ s with updated := env.now, lastMsgId := some msgId } :
            Session).phoneAttempts + 1 := by
          show 3 ≤ s.phoneAttempts + 1
          omega
        rw [if_pos hle]
      rw [hd]
      exact ⟨by simp, rfl⟩
    · intro hstep hatt hinv
      have hd : dispatch env { s with updated := env.now, lastMsgId := some msgId }
          (Msg.text body) = (none, [Out.errorMsg "bookingCancelled".toList]) := by
        unfold dispatch
        rw [if_neg hlang]
        rw [if_neg (show ¬ s.step = Step.INIT by rw [hstep]; intro h; cases h)]
        show dispatchText env _ body = _
        unfold dispatchText
        rw [if_neg (show ¬ s.step = Step.AWAIT_NAME by rw [hstep]; intro h; cases h)]
        rw [if_neg (show ¬ s.step = Step.AWAIT_EMAIL by rw [hstep]; intro h; cases h)]
        rw [if_neg (show ¬ s.step = Step.AWAIT_PHONE by rw [hstep]; intro h; cases h)]
        rw [if_neg (show ¬ s.step = Step.AWAIT_PAYMENT by rw [hstep]; intro h; cases h)]
        rw [if_neg (show ¬ s.step = Step.AWAIT_HELP_NAME by rw [hstep]; intro h; cases h)]
        rw [if_neg (show ¬ s.step = Step.AWAIT_HELP_EMAIL by rw [hstep]; intro h; cases h)]
        rw [if_neg (show ¬ s.step = Step.AWAIT_HELP_MESSAGE by rw [hstep]; intro h; cases h)]
        rw [if_pos hstep]
        rw [if_pos hinv]
        have hle : 3 ≤ ({ s with updated := env.now, lastMsgId := some msgId } :
            Session).phoneAttempts + 1 := by
          show 3 ≤ s.phoneAttempts + 1
          omega
        rw [if_pos hle]
      rw [hd]
      exact ⟨by simp, rfl⟩
    · intro hstep hatt hinv
      have hd : dispatch env { s with updated := env.now, lastMsgId := some msgId }
          (Msg.text body) = (none, [Out.errorMsg "bookingCancelled".toList]) := by
        unfold dispatch
        rw [if_neg hlang]
        rw [if_neg (show ¬ s.step = Step.INIT by rw [hstep]; intro h; cases h)]
        show dispatchText env _ body = _
        unfold dispatchText
        rw [if_neg (show ¬ s.step = Step.AWAIT_NAME by rw [hstep]; intro h; cases h)]
        rw [if_neg (show ¬ s.step = Step.AWAIT_EMAIL by rw [hstep]; intro h; cases h)]
        rw [if_neg (show ¬ s.step = Step.AWAIT_PHONE by rw [hstep]; intro h; cases h)]
        rw [if_neg (show ¬ s.step = Step.AWAIT_PAYMENT by rw [hstep]; intro h; cases h)]
        rw [if_neg (show ¬ s.step = Step.AWAIT_HELP_NAME by rw [hstep]; intro h; cases h)]
        rw [if_neg (show ¬ s.step = Step.AWAIT_HELP_EMAIL by rw [hstep]; intro h; cases h)]
        rw [if_neg (show ¬ s.step = Step.AWAIT_HELP_MESSAGE by rw [hstep]; intro h; cases h)]
        rw [if_neg (show ¬ s.step = Step.AWAIT_RESCHEDULE_PHONE by
          rw [hstep]; intro h; cases h)]
        rw [if_pos hstep]
        rw [if_pos hinv]
        have hle : 3 ≤ ({ s with updated := env.now, lastMsgId := some msgId } :
            Session).phoneAttempts + 1 := by
          show 3 ≤ s.phoneAttempts + 1
          omega
        rw [if_pos hle]
      rw [hd]
      exact ⟨by simp, rfl⟩
  · intro env store u msgId msg hnone
    have hdup : ¬ (freshSession env.freshSid env.now).lastMsgId = some msgId := by
      intro h; cases h
    have hsess : getSession env store u = freshSession env.freshSid env.now := by
      simp only [getSession, hnone]
    have h2 : (process env store u msgId msg).2 =
        (dispatch env { freshSession env.freshSid env.now with
          lastMsgId := some msgId } msg).2 := by
      unfold process
      rw [hsess]
      rw [if_neg hdup]
    have h1 : (process env store u msgId msg).1 u =
        (dispatch env { freshSession env.freshSid env.now with
          lastMsgId := some msgId } msg).1 := by
      unfold process
      rw [hsess]
      rw [if_neg hdup]
      exact if_pos rfl
    refine ⟨?_, ?_⟩
    · rw [h2]
      cases msg <;> rfl
    · rw [h1]
      cases msg <;> rfl

theorem claim_C6_validation_bound_amended_witness :
    (storeC1 ['u'] = some sC1 ∧ envC1.now - sC1.updated ≤ SESSION_TTL ∧
      ¬ sC1.lastMsgId = some ['m', '9'] ∧ sC1.language ≠ none) ∧
    (storeC6 ['u'] = none → False) ∧
    ((process envC1 (fun _ => none) ['u'] ['m', '9'] (Msg.text ['x'])).2 =
      [Out.languageSelection]) := by
  refine ⟨⟨by decide, by decide, by decide, by decide⟩, by decide, ?_⟩
  exact (claim_C6_validation_bound_amended.2 envC1 (fun _ => none) ['u'] ['m', '9']
    (Msg.text ['x']) rfl).1

def sC7 : Session := { freshSession 7 0 with
  language := some ['e', 'n']
  step := Step.AWAIT_APPOINTMENT_LIST_CANCEL
  lastMsgId := some ['m', '0'] }

def storeC7 : Str → Option Session :=
  fun v => if v = ['u'] then some sC7 else none

/-- **C7, counterexample.** A successful cancellation does NOT remove the
session from the store: selecting a cancel row with the provider
confirming the cancellation emits the success message but stores the
session back with `step = AWAIT_MAIN` (src/index.js lines 1734-1743 set
`session.step` and never call `clearSession`). -/
theorem claim_C7_counterexample :
    (process envC1 storeC7 ['u'] ['m', '7']
      (Msg.listReply "cancel_appt_b1_s1_st1".toList)).2 =
        [Out.successMsg "cancelSuccess".toList] ∧
    ((process envC1 storeC7 ['u'] ['m', '7']
      (Msg.listReply "cancel_appt_b1_s1_st1".toList)).1 ['u']).isSome = true ∧
    ((process envC1 storeC7 ['u'] ['m', '7']
      (Msg.listReply "cancel_appt_b1_s1_st1".toList)).1 ['u']).map Session.step =
        some Step.AWAIT_MAIN := by decide

/-- **C7, amended.** The booking command (free-plan path at
`AWAIT_PHONE`) clears the session on success and on failure alike, and a
reschedule-slot selection likewise clears it whether the provider
reschedule succeeds or fails; but a successful cancellation does not
clear the session — it stores it back with `step = AWAIT_MAIN` and emits
the success message. -/
theorem claim_C7_terminal_cleanup_amended :
    (∀ env store u s msgId body (svc : Service) date slot tm,
      store u = some s → env.now - s.updated ≤ SESSION_TTL →
      ¬ s.lastMsgId = some msgId → s.language ≠ none →
      s.step = Step.AWAIT_PHONE → validatePhone (trimStr body) = true →
      s.selectedService = some svc → svc.price.getD 0 = 0 →
      s.selectedDate = some date → s.selectedSlot = some slot →
      findTimeMatch slot.time = some tm →
      (process env store u msgId (Msg.text body)).1 u = none ∧
      (process env store u msgId (Msg.text body)).2 =
        (if env.bookingOk = true then [Out.confirmationMsg env.bookingRef]
         else [Out.errorMsg "bookingFailed".toList])) ∧
    (∀ env store u s msgId l tm rd,
      store u = some s → env.now - s.updated ≤ SESSION_TTL →
      ¬ s.lastMsgId = some msgId → s.language ≠ none →
      s.step = Step.AWAIT_RESCHEDULE_SLOT → ¬ l = showMoreSlotsId →
      4 ≤ (splitOnChar '_' l).length →
      findTimeMatch ((joinSpace ((splitOnChar '_' l).drop 3)).map
        (fun c => if c = '-' then ':' else c)) = some tm →
      s.rescheduleData = some rd →
      (process env store u msgId (Msg.listReply l)).1 u = none ∧
      (process env store u msgId (Msg.listReply l)).2 =
        (if env.rescheduleOk = true then [Out.successMsg "rescheduleSuccess".toList]
         else [Out.errorMsg "rescheduleFailed".toList])) ∧
    (∀ env store u s msgId l p2,
      store u = some s → env.now - s.updated ≤ SESSION_TTL →
      ¬ s.lastMsgId = some msgId → s.language ≠ none →
      s.step = Step.AWAIT_APPOINTMENT_LIST_CANCEL →
      showMoreApptsTag.isPrefixOf l = false →
      splitOnSub apptTag l = ["cancel".toList, p2] →
      3 ≤ (splitOnChar '_' p2).length →
      env.cancelOk = true →
      (process env store u msgId (Msg.listReply l)).1 u =
        some { s with
          updated := env.now
          lastMsgId := some msgId
          step := Step.AWAIT_MAIN } ∧
      (process env store u msgId (Msg.listReply l)).2 =
        [Out.successMsg "cancelSuccess".toList]) := by
  refine ⟨?_, ?_, ?_⟩
  · intro env store u s msgId body svc date slot tm hs hfresh hdup hlang hstep hvalid
      hsvc hprice hdate hslot htm
    have hd : dispatch env { s with updated := env.now, lastMsgId := some msgId }
        (Msg.text body) =
        (none, if env.bookingOk = true then [Out.confirmationMsg env.bookingRef]
          else [Out.errorMsg "bookingFailed".toList]) := by
      unfold dispatch
      rw [if_neg hlang]
      rw [if_neg (show ¬ s.step = Step.INIT by rw [hstep]; intro h; cases h)]
      show dispatchText env _ body = _
      unfold dispatchText
      rw [if_neg (show ¬ s.step = Step.AWAIT_NAME by rw [hstep]; intro h; cases h)]
      rw [if_neg (show ¬ s.step = Step.AWAIT_EMAIL by rw [hstep]; intro h; cases h)]
      rw [if_pos hstep]
      rw [if_neg (show ¬ validatePhone (trimStr body) = false by
        rw [hvalid]; intro h; cases h)]
      simp only [hsvc]
      rw [if_neg (show ¬ 0 < svc.price.getD 0 by rw [hprice]; omega)]
      unfold createZohoAppointment
      simp only [hsvc, hdate, hslot, htm]
      cases hb : env.bookingOk <;> simp [hb]
    rw [process_nondup env store u s msgId (Msg.text body) hs hfresh hdup]
    constructor
    · simp only [hd]
      simp
    · simp only [hd]
  · intro env store u s msgId l tm rd hs hfresh hdup hlang hstep hsm hlen htm hrd
    have hd : dispatch env { s with updated := env.now, lastMsgId := some msgId }
        (Msg.listReply l) =
        (none, if env.rescheduleOk = true then [Out.successMsg "rescheduleSuccess".toList]
          else [Out.errorMsg "rescheduleFailed".toList]) := by
      unfold dispatch
      rw [if_neg hlang]
      rw [if_neg (show ¬ s.step = Step.INIT by rw [hstep]; intro h; cases h)]
      show dispatchList env _ l = _
      unfold dispatchList
      rw [if_neg (show ¬ s.step = Step.AWAIT_SERVICE by rw [hstep]; intro h; cases h)]
      rw [if_neg (show ¬ s.step = Step.AWAIT_STAFF by rw [hstep]; intro h; cases h)]
      rw [if_neg (show ¬ s.step = Step.AWAIT_MONTH by rw [hstep]; intro h; cases h)]
      rw [if_neg (show ¬ s.step = Step.AWAIT_DATE by rw [hstep]; intro h; cases h)]
      rw [if_neg (show ¬ s.step = Step.AWAIT_SLOT by rw [hstep]; intro h; cases h)]
      rw [if_neg (show ¬ (s.step = Step.AWAIT_APPOINTMENT_LIST_RESCHEDULE ∨
        s.step = Step.AWAIT_APPOINTMENT_LIST_CANCEL) by
          rw [hstep]; rintro (h | h) <;> cases h)]
      rw [if_pos hstep]
      unfold dispatchRescheduleSlot
      rw [if_neg hsm]
      rw [if_neg (Nat.not_lt.mpr hlen)]
      simp only [htm, hrd]
      cases hb : env.rescheduleOk <;> simp [hb]
    rw [process_nondup env store u s msgId (Msg.listReply l) hs hfresh hdup]
    constructor
    · simp only [hd]
      simp
    · simp only [hd]
  · intro env store u s msgId l p2 hs hfresh hdup hlang hstep hpre hparts hids hok
    have hd : dispatch env { s with updated := env.now, lastMsgId := some msgId }
        (Msg.listReply l) =
        (some { s with
            updated := env.now
            lastMsgId := some msgId
            step := Step.AWAIT_MAIN },
          [Out.successMsg "cancelSuccess".toList]) := by
      unfold dispatch
      rw [if_neg hlang]
      rw [if_neg (show ¬ s.step = Step.INIT by rw [hstep]; intro h; cases h)]
      show dispatchList env _ l = _
      unfold dispatchList
      rw [if_neg (show ¬ s.step = Step.AWAIT_SERVICE by rw [hstep]; intro h; cases h)]
      rw [if_neg (show ¬ s.step = Step.AWAIT_STAFF by rw [hstep]; intro h; cases h)]
      rw [if_neg (show ¬ s.step = Step.AWAIT_MONTH by rw [hstep]; intro h; cases h)]
      rw [if_neg (show ¬ s.step = Step.AWAIT_DATE by rw [hstep]; intro h; cases h)]
      rw [if_neg (show ¬ s.step = Step.AWAIT_SLOT by rw [hstep]; intro h; cases h)]
      rw [if_pos (Or.inr hstep)]
      unfold dispatchApptSelection
      rw [if_neg (show ¬ showMoreApptsTag.isPrefixOf l = true by
        rw [hpre]; intro h; cases h)]
      simp only [hparts]
      have hil : ¬ (3 > (splitOnChar '_' p2).length) := Nat.not_lt.mpr hids
      simp [hok, hil]
    rw [process_nondup env store u s msgId (Msg.listReply l) hs hfresh hdup]
    constructor
    · simp only [hd]
      simp
    · simp only [hd]

theorem claim_C7_terminal_cleanup_amended_witness :
    (storeC7 ['u'] = some sC7 ∧ envC1.cancelOk = true ∧
      splitOnSub apptTag "cancel_appt_b1_s1_st1".toList =
        ["cancel".toList, "b1_s1_st1".toList]) ∧
    (process envC1 storeC7 ['u'] ['m', '8']
      (Msg.listReply "cancel_appt_b1_s1_st1".toList)).1 ['u'] =
      some { sC7 with
        updated := envC1.now
        lastMsgId := some ['m', '8']
        step := Step.AWAIT_MAIN } := by
  refine ⟨⟨by decide, by decide, by decide⟩, ?_⟩
  exact (claim_C7_terminal_cleanup_amended.2.2 envC1 storeC7 ['u'] sC7 ['m', '8']
    "cancel_appt_b1_s1_st1".toList "b1_s1_st1".toList (by decide) (by decide)
    (by decide) (by decide) (by decide) (by decide) (by decide) (by decide)
    (by decide)).1

def sC10 : Session := { freshSession 10 0 with
  language := some ['e', 'n']
  step := Step.AWAIT_PHONE
  lastMsgId := some ['m', '0'] }

def storeC10 : Str → Option Session :=
  fun v => if v = ['u'] then some sC10 else none

/-- **C10.** `validatePhone` accepts an input exactly when stripping all
non-digit characters leaves exactly 10 digits whose first digit is 6, 7,
8 or 9; and a rejected submission at the phone stage (while under the
budget) increments the per-session phone attempt counter and re-prompts. -/
theorem claim_C10_phone_validation :
    (∀ s : Str, validatePhone s = true ↔
      ((digitsOf s).length = 10 ∧
        ∃ c rest, digitsOf s = c :: rest ∧ (c = '6' ∨ c = '7' ∨ c = '8' ∨ c = '9'))) ∧
    (∀ env store u s msgId body,
      store u = some s → env.now - s.updated ≤ SESSION_TTL →
      ¬ s.lastMsgId = some msgId → s.language ≠ none →
      s.step = Step.AWAIT_PHONE → validatePhone (trimStr body) = false →
      s.phoneAttempts ≤ 1 →
      ((process env store u msgId (Msg.text body)).1 u).map Session.phoneAttempts =
        some (s.phoneAttempts + 1) ∧
      (process env store u msgId (Msg.text body)).2 =
        [Out.textPrompt "invalidPhone".toList]) := by
  refine ⟨fun s => validatePhone_iff s, ?_⟩
  intro env store u s msgId body hs hfresh hdup hlang hstep hinv hatt
  have hd : dispatch env { s with updated := env.now, lastMsgId := some msgId }
      (Msg.text body) =
      (some { s with
          updated := env.now
          lastMsgId := some msgId
          phoneAttempts := s.phoneAttempts + 1 },
        [Out.textPrompt "invalidPhone".toList]) := by
    unfold dispatch
    rw [if_neg hlang]
    rw [if_neg (show ¬ s.step = Step.INIT by rw [hstep]; intro h; cases h)]
    show dispatchText env _ body = _
    unfold dispatchText
    rw [if_neg (show ¬ s.step = Step.AWAIT_NAME by rw [hstep]; intro h; cases h)]
    rw [if_neg (show ¬ s.step = Step.AWAIT_EMAIL by rw [hstep]; intro h; cases h)]
    rw [if_pos hstep]
    rw [if_pos hinv]
    have hno : ¬ 3 ≤ ({ s with updated := env.now, lastMsgId := some msgId } :
        Session).phoneAttempts + 1 := by
      show ¬ 3 ≤ s.phoneAttempts + 1
      omega
    rw [if_neg hno]
  rw [process_nondup env store u s msgId (Msg.text body) hs hfresh hdup]
  constructor
  · simp only [hd]
    simp
  · simp only [hd]

theorem claim_C10_phone_validation_witness :
    (storeC10 ['u'] = some sC10 ∧ validatePhone (trimStr ['1']) = false ∧
      sC10.phoneAttempts ≤ 1) ∧
    ((process envC1 storeC10 ['u'] ['m', '4'] (Msg.text ['1'])).1 ['u']).map
      Session.phoneAttempts = some (sC10.phoneAttempts + 1) := by
  refine ⟨⟨by decide, by decide, by decide⟩, ?_⟩
  exact (claim_C10_phone_validation.2 envC1 storeC10 ['u'] sC10 ['m', '4'] ['1']
    (by decide) (by decide) (by decide) (by decide) (by decide) (by decide)
    (by decide)).1

end WABot
